import Mathlib

/-!
Verification of the playoff-bracket / scheduling / standings core of the
`cisco_ping_pong` league application (`src/app.py`).

The Python code is shallowly embedded: each relevant Python function is
translated into an executable Lean definition of the same name.  Database
rows become records, SQL queries become list operations over an explicit
`Db` state (rows carry the serially-assigned `id`; `ORDER BY id` becomes a
sort on ids), and Python `None` becomes `Option.none`.  Python
truthiness tests on ids (`if winner:`) are modelled faithfully: both `None`
and `0` are falsy.  Randomness (`random.shuffle`) is modelled by oracle
parameters; theorems quantify over all oracles whose outputs are
permutations of their inputs.
-/

namespace CiscoPingPong

/-- One row of the `matches` table (`app.py` schema).  Integer score columns
are nullable, `reported`/`double_forfeit`/`playoff` are stored as 0/1 and
modelled as `Bool`, `playoff_round` and `match_number` are nullable ints. -/
structure MatchRow where
  id : Nat := 0
  week : Option Nat := none
  player1_id : Option Nat := none
  player2_id : Option Nat := none
  score1 : Option Int := none
  score2 : Option Int := none
  game1_score1 : Option Int := none
  game1_score2 : Option Int := none
  game2_score1 : Option Int := none
  game2_score2 : Option Int := none
  game3_score1 : Option Int := none
  game3_score2 : Option Int := none
  reported : Bool := false
  double_forfeit : Bool := false
  playoff : Bool := false
  playoff_round : Option Nat := none
  match_number : Option Nat := none
  deriving Repr, DecidableEq

/-- `MAX_GAMES = 3` (`app.py`): the three per-game score slots in order. -/
def gameSlots (m : MatchRow) : List (Option Int × Option Int) :=
  [(m.game1_score1, m.game1_score2), (m.game2_score1, m.game2_score2),
   (m.game3_score1, m.game3_score2)]

/-- `extract_game_scores` (`app.py:586`): keep only the game slots where both
scores are non-null, in game order. -/
def extract_game_scores (m : MatchRow) : List (Int × Int) :=
  (gameSlots m).filterMap fun s =>
    match s with
    | (some a, some b) => some (a, b)
    | _ => none

/-- `aggregate_match_points` (`app.py:597`): sum per-game scores when any
exist, otherwise fall back to the stored aggregate (`score or 0`). -/
def aggregate_match_points (m : MatchRow) : Int × Int :=
  let scores := extract_game_scores m
  if scores ≠ [] then
    (scores.foldr (fun s acc => s.1 + acc) 0, scores.foldr (fun s acc => s.2 + acc) 0)
  else
    (m.score1.getD 0, m.score2.getD 0)

/-- `calculate_game_wins` (`app.py:608`): games won by each side (strictly
greater score). -/
def calculate_game_wins (scores : List (Int × Int)) : Nat × Nat :=
  scores.foldl
    (fun acc s =>
      if s.1 > s.2 then (acc.1 + 1, acc.2)
      else if s.2 > s.1 then (acc.1, acc.2 + 1)
      else acc)
    (0, 0)

/-- `determine_winner` (`app.py:3553`).  The bye branch (`player2_id is
None`) is evaluated first, before the `reported` and `double_forfeit`
checks; it returns the raw `player1_id` column (possibly null). -/
def determine_winner (m : MatchRow) : Option Nat :=
  if m.player2_id = none then m.player1_id
  else if m.reported = false then none
  else if m.double_forfeit then none
  else
    let scores := extract_game_scores m
    if scores ≠ [] then
      let wins := calculate_game_wins scores
      if wins.1 = wins.2 then none
      else if wins.1 > wins.2 then m.player1_id else m.player2_id
    else
      match m.score1, m.score2 with
      | some s1, some s2 =>
          if s1 = s2 then none
          else if s1 > s2 then m.player1_id else m.player2_id
      | _, _ => none

/-- `round_is_complete` (`app.py:3484`): a round is complete when every match
with a non-null `player2_id` is reported; null-`player2_id` matches are
skipped entirely. -/
def round_is_complete (ms : List MatchRow) : Bool :=
  ms.all fun m => m.player2_id ≠ none → m.reported

/-- `collect_winners` (`app.py:3493`): winners of a round in match order.
Python's `if winner:` treats both `None` and id `0` as falsy. -/
def collect_winners (ms : List MatchRow) : List Nat :=
  ms.foldr
    (fun m acc =>
      match determine_winner m with
      | some w => if w = 0 then acc else w :: acc
      | none => acc)
    []

/-! ## Bracket creation (`create_playoff_bracket`, `app.py:3194`)

`create_playoff_bracket` first deletes all playoff matches, computes the
standings-derived seed order, and then inserts the play-in (round 0) and
round 1 rows.  The row-construction part is embedded as a pure function of
the seed list; row ids are assigned serially starting from a given id, as
the database's serial column does. -/

/-- Metadata record built by `generate_play_in_matches_metadata`
(`app.py:749`). -/
structure PlayInMeta where
  target_seed : Nat
  player1_id : Option Nat
  player2_id : Option Nat
  player1_rank : Nat
  player2_rank : Nat
  deriving Repr, DecidableEq

/-- Loop body of `generate_play_in_matches_metadata` (`app.py:762-773`): the
metadata record for one `(seed_no, opponent_seed_no)` pairing.  `seeds[k]`
out of range would raise in Python and yields `none` here (never reached by
`create_playoff_bracket`); `player_ranks.get(pid, default)` is the Python
dict lookup with default. -/
def playInMetaFor (seeds : List Nat) (player_ranks : Nat → Option Nat)
    (p : Nat × Nat) : PlayInMeta :=
  let seed_no := p.1
  let opponent_seed_no := p.2
  { target_seed := seed_no
    player1_id := seeds[seed_no - 1]?
    player2_id := seeds[opponent_seed_no - 1]?
    player1_rank := ((seeds[seed_no - 1]?.bind player_ranks).getD seed_no)
    player2_rank := ((seeds[opponent_seed_no - 1]?.bind player_ranks).getD opponent_seed_no) }

/-- `generate_play_in_matches_metadata` (`app.py:749`): pair seed
`num_byes+i` against seed `num_players+1-i` for each play-in game, keyed by
the target seed, then sort by target seed descending (Python's stable
`sort(..., reverse=True)` becomes an insertion sort by the reversed order,
a stable sort producing the same descending order). -/
def generate_play_in_matches_metadata (seeds : List Nat)
    (target_bracket_size num_byes : Nat) (player_ranks : Nat → Option Nat) :
    List PlayInMeta :=
  let num_players := seeds.length
  if num_players ≤ target_bracket_size then []
  else
    let play_in_seed_numbers := List.range' (num_byes + 1) (target_bracket_size - num_byes)
    let opponent_seed_numbers :=
      (List.range' (target_bracket_size + 1) (num_players - target_bracket_size)).reverse
    let metas := (play_in_seed_numbers.zip opponent_seed_numbers).map
      (playInMetaFor seeds player_ranks)
    metas.insertionSort fun a b => b.target_seed ≤ a.target_seed

/-- The row inserted for one play-in metadata record (`app.py:3242-3265`):
round 0, `match_number = target_seed`, unreported, null scores. -/
def playInRow (id : Nat) (meta : PlayInMeta) : MatchRow :=
  { id := id
    player1_id := meta.player1_id
    player2_id := meta.player2_id
    reported := false
    playoff := true
    playoff_round := some 0
    match_number := some meta.target_seed }

/-- `create_first_round_matches` (`app.py:3300`): slot `k` (1-based) pairs
`seeds[k-1]` against `seeds[-(k)]`, `match_number = k`.  Ids are assigned
serially from `firstId`. -/
def create_first_round_matches (seeds : List Nat) (playoff_round : Nat)
    (firstId : Nat) : List MatchRow :=
  (List.range (seeds.length / 2)).map fun slot =>
    { id := firstId + slot
      player1_id := seeds[slot]?
      player2_id := seeds[seeds.length - (slot + 1)]?
      reported := false
      playoff := true
      playoff_round := some playoff_round
      match_number := some (slot + 1) }

/-- Round-1 row in the play-in branch (`app.py:3270-3294`): seeds
`match_index` and `target_bracket_size+1-match_index`; a slot is filled only
when its seed is within the byes, otherwise null. -/
def mainRound1Row (seeds : List Nat) (target_bracket_size num_byes : Nat)
    (id match_index : Nat) : MatchRow :=
  let seed1 := match_index
  let seed2 := target_bracket_size + 1 - match_index
  { id := id
    player1_id := if seed1 ≤ num_byes then seeds[seed1 - 1]? else none
    player2_id := if seed2 ≤ num_byes then seeds[seed2 - 1]? else none
    reported := false
    playoff := true
    playoff_round := some 1
    match_number := some match_index }

/-- Python's `int.bit_length`, by fuel-based binary recursion (the fuel
`n` always suffices since halving reaches zero within `n` steps). -/
def bitLenAux : Nat → Nat → Nat
  | 0, _ => 0
  | fuel + 1, n => if n = 0 then 0 else bitLenAux fuel (n / 2) + 1

/-- `num_players.bit_length()` (`app.py:3230`). -/
def bit_length (n : Nat) : Nat := bitLenAux n n

lemma size_succ_div2 {n : Nat} (h : n ≠ 0) : Nat.size n = Nat.size (n / 2) + 1 := by
  have hb : Nat.bit (n.testBit 0) (n / 2) = n := by
    rw [← Nat.shiftRight_one]
    exact Nat.bit_testBit_zero_shiftRight_one n
  calc Nat.size n = Nat.size (Nat.bit (n.testBit 0) (n / 2)) := by rw [hb]
    _ = Nat.size (n / 2) + 1 := Nat.size_bit (by rw [hb]; exact h)

lemma bitLenAux_eq_size : ∀ fuel n, n ≤ fuel → bitLenAux fuel n = Nat.size n := by
  intro fuel
  induction fuel with
  | zero =>
      intro n h
      have h0 : n = 0 := by omega
      subst h0
      simp [bitLenAux, Nat.size_zero]
  | succ f ih =>
      intro n h
      by_cases h0 : n = 0
      · subst h0
        simp [bitLenAux, Nat.size_zero]
      · simp only [bitLenAux, if_neg h0]
        rw [ih (n / 2) (by omega)]
        exact (size_succ_div2 h0).symm

lemma bit_length_eq_size (n : Nat) : bit_length n = Nat.size n :=
  bitLenAux_eq_size n n le_rfl

/-- Result of `create_playoff_bracket`: the inserted playoff rows (in
insertion order) and the value written to `current_playoff_round`. -/
structure BracketCreation where
  rows : List MatchRow
  round_setting : Int
  deriving Repr, DecidableEq

/-- `num_players & (num_players - 1) == 0` (`app.py:3220`). -/
def isPowerOfTwoCheck (n : Nat) : Bool :=
  n &&& (n - 1) == 0

/-- The row-construction part of `create_playoff_bracket` (`app.py:3209-3297`),
as a function of the standings-derived seed order (rank 1 first).  Fewer
than two seeds: nothing is created and the round setting becomes -1.  A
power-of-two field builds round 1 directly and the setting becomes 1.
Otherwise the play-in rows (round 0, in the metadata order) and the round-1
rows are inserted and the setting becomes 0. -/
def create_playoff_bracket (seeds : List Nat)
    (player_ranks : Nat → Option Nat) (firstId : Nat) : BracketCreation :=
  let num_players := seeds.length
  if num_players < 2 then { rows := [], round_setting := -1 }
  else if isPowerOfTwoCheck num_players then
    { rows := create_first_round_matches seeds 1 firstId, round_setting := 1 }
  else
    let target_bracket_size := 1 <<< (bit_length num_players - 1)
    let num_play_in_games := num_players - target_bracket_size
    let num_byes := target_bracket_size - num_play_in_games
    let metas := generate_play_in_matches_metadata seeds target_bracket_size num_byes player_ranks
    let playInRows := metas.enum.map fun p => playInRow (firstId + p.1) p.2
    let round1Rows := (List.range (target_bracket_size / 2)).map fun i =>
      mainRound1Row seeds target_bracket_size num_byes
        (firstId + metas.length + i) (i + 1)
    { rows := playInRows ++ round1Rows, round_setting := 0 }

/-- The playoff rows of a creation result that belong to round `r`. -/
def bracketRound (rows : List MatchRow) (r : Nat) : List MatchRow :=
  rows.filter fun m => m.playoff && m.playoff_round == some r

/-! ## Helper lemmas for bracket creation -/

lemma countP_enumFrom_map {α β : Type} (f : Nat × α → β) (q : β → Bool)
    (p : α → Bool) (hf : ∀ i a, q (f (i, a)) = p a) :
    ∀ (l : List α) (n : Nat),
      (((l.enumFrom n).map f).countP q) = l.countP p := by
  intro l
  induction l with
  | nil => intro n; rfl
  | cons a t ih =>
      intro n
      simp [List.enumFrom, List.countP_cons, hf, ih]

lemma countP_enum_map {α β : Type} (f : Nat × α → β) (q : β → Bool)
    (p : α → Bool) (hf : ∀ i a, q (f (i, a)) = p a) (l : List α) :
    ((l.enum.map f).countP q) = l.countP p :=
  countP_enumFrom_map f q p hf l 0

lemma mem_enum_map {α β : Type} (f : Nat × α → β) (l : List α) {j : Nat}
    (hj : j < l.length) : f (j, l[j]) ∈ l.enum.map f := by
  have hj' : j < l.enum.length := by simpa [List.enum_length] using hj
  have : l.enum[j] = (j, l[j]) := List.getElem_enum l j hj'
  have hmem : (j, l[j]) ∈ l.enum := this ▸ List.getElem_mem hj'
  exact List.mem_map_of_mem f hmem

lemma countP_zip_fst (q : Nat → Bool) :
    ∀ (l1 l2 : List Nat), l1.length = l2.length →
      ((l1.zip l2).countP fun p => q p.1) = l1.countP q := by
  intro l1
  induction l1 with
  | nil => intro l2 _; rfl
  | cons a t ih =>
      intro l2 h
      cases l2 with
      | nil => simp at h
      | cons b t2 =>
          simp only [List.zip_cons_cons, List.countP_cons, ih t2 (by simpa using h)]

lemma size_pos_of_pos {n : Nat} (h : 1 ≤ n) : 1 ≤ n.size :=
  Nat.size_pos.mpr h

lemma two_pow_size_pred_le {n : Nat} (h : 1 ≤ n) : 2 ^ (n.size - 1) ≤ n := by
  have hs : 1 ≤ n.size := size_pos_of_pos h
  exact Nat.lt_size.mp (by omega)

lemma lt_two_pow_size_pred {n : Nat} (h : 1 ≤ n) : n < 2 * 2 ^ (n.size - 1) := by
  have hs : 1 ≤ n.size := size_pos_of_pos h
  have h1 : n < 2 ^ n.size := Nat.lt_size_self n
  have h2 : n.size = (n.size - 1) + 1 := by omega
  calc n < 2 ^ n.size := h1
    _ = 2 ^ ((n.size - 1) + 1) := by rw [← h2]
    _ = 2 ^ (n.size - 1) * 2 := by rw [pow_succ]
    _ = 2 * 2 ^ (n.size - 1) := by ring

lemma isPowerOfTwoCheck_two_pow (k : Nat) : isPowerOfTwoCheck (2 ^ k) = true := by
  have hz : (2 ^ k) &&& (2 ^ k - 1) = 0 := by
    apply Nat.eq_of_testBit_eq
    intro i
    rw [Nat.testBit_land, Nat.testBit_two_pow, Nat.testBit_two_pow_sub_one]
    simp only [Nat.zero_testBit]
    by_cases hk : k = i <;> simp [hk]
  simp [isPowerOfTwoCheck, hz]

lemma generate_play_in_eq (seeds : List Nat) (t byes : Nat)
    (ranks : Nat → Option Nat) (h : t < seeds.length) :
    generate_play_in_matches_metadata seeds t byes ranks =
      (((List.range' (byes + 1) (t - byes)).zip
          ((List.range' (t + 1) (seeds.length - t)).reverse)).map
        (playInMetaFor seeds ranks)).insertionSort
        (fun a b => b.target_seed ≤ a.target_seed) := by
  unfold generate_play_in_matches_metadata
  rw [if_neg (by omega)]

lemma create_playoff_bracket_playin_eq (seeds : List Nat)
    (ranks : Nat → Option Nat) (firstId : Nat) (h2 : 2 ≤ seeds.length)
    (hnp : isPowerOfTwoCheck seeds.length = false) :
    create_playoff_bracket seeds ranks firstId =
      { rows :=
          ((generate_play_in_matches_metadata seeds (1 <<< (bit_length seeds.length - 1))
              (1 <<< (bit_length seeds.length - 1) - (seeds.length - 1 <<< (bit_length seeds.length - 1)))
              ranks).enum.map fun p => playInRow (firstId + p.1) p.2) ++
          ((List.range (1 <<< (bit_length seeds.length - 1) / 2)).map fun i =>
            mainRound1Row seeds (1 <<< (bit_length seeds.length - 1))
              (1 <<< (bit_length seeds.length - 1) - (seeds.length - 1 <<< (bit_length seeds.length - 1)))
              (firstId + (generate_play_in_matches_metadata seeds
                  (1 <<< (bit_length seeds.length - 1))
                  (1 <<< (bit_length seeds.length - 1) - (seeds.length - 1 <<< (bit_length seeds.length - 1)))
                  ranks).length + i)
              (i + 1)),
        round_setting := 0 } := by
  unfold create_playoff_bracket
  rw [if_neg (by omega), if_neg (by simp [hnp])]

lemma exists_playin_row_of_mem {metas : List PlayInMeta} (firstId : Nat)
    {mt : PlayInMeta} (h : mt ∈ metas) :
    ∃ m ∈ metas.enum.map (fun p => playInRow (firstId + p.1) p.2),
      m.match_number = some mt.target_seed ∧ m.player1_id = mt.player1_id ∧
      m.player2_id = mt.player2_id ∧ m.reported = false := by
  obtain ⟨j, hj, hje⟩ := List.getElem_of_mem h
  refine ⟨playInRow (firstId + j) metas[j], mem_enum_map _ metas hj, ?_, ?_, ?_, rfl⟩
  · rw [hje]
    exact rfl
  · rw [hje]
    exact rfl
  · rw [hje]
    exact rfl

/-- C1: with `N ≥ 2` seeds and `N` not a power of two, letting `t` be the
largest power of two at most `N` (as the code computes it), `g = N - t` the
number of play-in games and `byes = t - g`: bracket creation sets the
playoff round to 0; creates exactly `g` round-0 matches, with exactly one
match per target seed `byes + i` (`1 ≤ i ≤ g`) pairing seed `byes + i`
against seed `N + 1 - i` and carrying `match_number = byes + i`; creates
`t / 2` round-1 matches, with match `k` pairing seed `k` against seed
`t + 1 - k` and leaving null every slot whose seed exceeds `byes`; and
creates rows in rounds 0 and 1 only. -/
theorem play_in_bracket_spec (seeds : List Nat) (ranks : Nat → Option Nat)
    (firstId : Nat) (N t g byes : Nat)
    (hN : N = seeds.length) (ht : t = 1 <<< (bit_length N - 1))
    (hg : g = N - t) (hbyes : byes = t - g)
    (h2 : 2 ≤ N) (hnp : isPowerOfTwoCheck N = false) :
    (create_playoff_bracket seeds ranks firstId).round_setting = 0 ∧
    (bracketRound (create_playoff_bracket seeds ranks firstId).rows 0).length = g ∧
    (∀ i, 1 ≤ i → i ≤ g →
      (bracketRound (create_playoff_bracket seeds ranks firstId).rows 0).countP
          (fun m => m.match_number == some (byes + i)) = 1 ∧
      ∃ m ∈ bracketRound (create_playoff_bracket seeds ranks firstId).rows 0,
        m.match_number = some (byes + i) ∧
        m.player1_id = seeds[byes + i - 1]? ∧
        m.player2_id = seeds[N - i]? ∧ m.reported = false) ∧
    (bracketRound (create_playoff_bracket seeds ranks firstId).rows 1).length = t / 2 ∧
    (∀ k, 1 ≤ k → k ≤ t / 2 →
      (bracketRound (create_playoff_bracket seeds ranks firstId).rows 1).countP
          (fun m => m.match_number == some k) = 1 ∧
      ∃ m ∈ bracketRound (create_playoff_bracket seeds ranks firstId).rows 1,
        m.match_number = some k ∧
        m.player1_id = (if k ≤ byes then seeds[k - 1]? else none) ∧
        m.player2_id = (if t + 1 - k ≤ byes then seeds[t - k]? else none) ∧
        m.reported = false) ∧
    (∀ m ∈ (create_playoff_bracket seeds ranks firstId).rows,
      m.playoff_round = some 0 ∨ m.playoff_round = some 1) := by
  subst hN
  have htpow : t = 2 ^ (seeds.length.size - 1) := by
    rw [ht, bit_length_eq_size, Nat.shiftLeft_eq, one_mul]
  have htle : t ≤ seeds.length := htpow ▸ two_pow_size_pred_le (by omega)
  have hlt2 : seeds.length < 2 * t := htpow ▸ lt_two_pow_size_pred (by omega)
  have hne : seeds.length ≠ t := by
    intro he
    rw [he, htpow, isPowerOfTwoCheck_two_pow] at hnp
    exact absurd hnp (by simp)
  have htlt : t < seeds.length := lt_of_le_of_ne htle (fun h => hne h.symm)
  have hg1 : 1 ≤ g := by omega
  have hgt : g < t := by omega
  have hcr := create_playoff_bracket_playin_eq seeds ranks firstId (by omega) hnp
  rw [← ht] at hcr
  have hbe : t - (seeds.length - t) = byes := by omega
  rw [hbe] at hcr
  have hgen := generate_play_in_eq seeds t byes ranks htlt
  have htb : t - byes = g := by omega
  have hlg : seeds.length - t = g := by omega
  rw [htb, hlg] at hgen
  have hzmem : ∀ i, 1 ≤ i → i ≤ g →
      (byes + i, seeds.length + 1 - i) ∈
        (List.range' (byes + 1) g).zip ((List.range' (t + 1) g).reverse) := by
    intro i hi1 hig
    have hj : i - 1 <
        ((List.range' (byes + 1) g).zip ((List.range' (t + 1) g).reverse)).length := by
      rw [List.length_zip]
      simp only [List.length_range', List.length_reverse]
      omega
    apply List.mem_iff_getElem.mpr
    refine ⟨i - 1, hj, ?_⟩
    rw [List.getElem_zip]
    simp only [Prod.mk.injEq]
    constructor
    · rw [List.getElem_range']
      omega
    · rw [List.getElem_reverse, List.getElem_range']
      simp only [List.length_range']
      omega
  set L := ((List.range' (byes + 1) g).zip
      ((List.range' (t + 1) g).reverse)).map (playInMetaFor seeds ranks) with hLdef
  set metas := generate_play_in_matches_metadata seeds t byes ranks with hmet
  have hLl : L.length = g := by
    rw [hLdef, List.length_map, List.length_zip]
    simp only [List.length_range', List.length_reverse]
    omega
  have hml : metas.length = g := by
    rw [hgen]
    exact (List.perm_insertionSort _ L).length_eq.trans hLl
  set A := metas.enum.map (fun p => playInRow (firstId + p.1) p.2) with hA
  set B := (List.range (t / 2)).map
      (fun i => mainRound1Row seeds t byes (firstId + metas.length + i) (i + 1)) with hB
  have hrows : (create_playoff_bracket seeds ranks firstId).rows = A ++ B := by
    rw [hcr]
  have hA0 : bracketRound A 0 = A := by
    apply List.filter_eq_self.mpr
    intro m hm
    rw [hA] at hm
    simp only [List.mem_map] at hm
    obtain ⟨p, _, rfl⟩ := hm
    rfl
  have hA1 : bracketRound A 1 = [] := by
    apply List.filter_eq_nil_iff.mpr
    intro m hm
    rw [hA] at hm
    simp only [List.mem_map] at hm
    obtain ⟨p, _, rfl⟩ := hm
    simp [playInRow, bracketRound]
  have hB1 : bracketRound B 1 = B := by
    apply List.filter_eq_self.mpr
    intro m hm
    rw [hB] at hm
    simp only [List.mem_map] at hm
    obtain ⟨p, _, rfl⟩ := hm
    rfl
  have hB0 : bracketRound B 0 = [] := by
    apply List.filter_eq_nil_iff.mpr
    intro m hm
    rw [hB] at hm
    simp only [List.mem_map] at hm
    obtain ⟨p, _, rfl⟩ := hm
    simp [mainRound1Row, bracketRound]
  have hR0 : bracketRound (create_playoff_bracket seeds ranks firstId).rows 0 = A := by
    rw [hrows]
    unfold bracketRound
    rw [List.filter_append]
    unfold bracketRound at hA0 hB0
    rw [hA0, hB0, List.append_nil]
  have hR1 : bracketRound (create_playoff_bracket seeds ranks firstId).rows 1 = B := by
    rw [hrows]
    unfold bracketRound
    rw [List.filter_append]
    unfold bracketRound at hA1 hB1
    rw [hA1, hB1, List.nil_append]
  refine ⟨by rw [hcr], ?_, ?_, ?_, ?_, ?_⟩
  · rw [hR0, hA]
    simp [List.enum_length, hml]
  · intro i hi1 hig
    constructor
    · rw [hR0, hA]
      rw [countP_enum_map _ _ (fun mt => mt.target_seed == byes + i)
        (fun j mt => rfl) metas]
      rw [hgen, List.Perm.countP_eq _ (List.perm_insertionSort _ L)]
      rw [hLdef, List.countP_map]
      show ((List.range' (byes + 1) g).zip
        ((List.range' (t + 1) g).reverse)).countP (fun p => p.1 == byes + i) = 1
      have hfst := countP_zip_fst (fun x => x == byes + i) (List.range' (byes + 1) g)
        ((List.range' (t + 1) g).reverse)
        (by simp only [List.length_range', List.length_reverse])
      rw [hfst]
      exact List.count_eq_one_of_mem (List.nodup_range' _ _)
        (List.mem_range'_1.mpr ⟨by omega, by omega⟩)
    · have hmem : playInMetaFor seeds ranks (byes + i, seeds.length + 1 - i) ∈ metas := by
        rw [hgen, (List.perm_insertionSort _ L).mem_iff, hLdef]
        exact List.mem_map_of_mem _ (hzmem i hi1 hig)
      obtain ⟨m, hmA, hmn, hp1, hp2, hrep⟩ := exists_playin_row_of_mem firstId hmem
      rw [hR0]
      refine ⟨m, hmA, ?_, ?_, ?_, hrep⟩
      · rw [hmn]
        exact rfl
      · rw [hp1]
        show seeds[byes + i - 1]? = seeds[byes + i - 1]?
        rfl
      · rw [hp2]
        show seeds[seeds.length + 1 - i - 1]? = seeds[seeds.length - i]?
        congr 1
        omega
  · rw [hR1, hB]
    simp
  · intro k hk1 hk2
    constructor
    · rw [hR1, hB]
      rw [List.countP_map]
      show (List.range (t / 2)).countP (fun n => n + 1 == k) = 1
      have heq : ∀ n ∈ List.range (t / 2),
          ((n + 1 == k) = true ↔ (n == k - 1) = true) := by
        intro n _
        simp only [beq_iff_eq]
        omega
      rw [List.countP_congr heq]
      have hcnt : (List.range (t / 2)).countP (fun x => x == k - 1)
          = (List.range (t / 2)).count (k - 1) := rfl
      rw [hcnt]
      exact List.count_eq_one_of_mem (List.nodup_range _)
        (List.mem_range.mpr (by omega))
    · rw [hR1, hB]
      have hkk : k - 1 + 1 = k := by omega
      have htk : t + 1 - k - 1 = t - k := by omega
      refine ⟨mainRound1Row seeds t byes (firstId + metas.length + (k - 1)) (k - 1 + 1),
        List.mem_map_of_mem _ (List.mem_range.mpr (by omega)), ?_, ?_, ?_, rfl⟩
      · show some (k - 1 + 1) = some k
        rw [hkk]
      · show (if k - 1 + 1 ≤ byes then seeds[k - 1 + 1 - 1]? else none)
          = (if k ≤ byes then seeds[k - 1]? else none)
        rw [hkk]
      · show (if t + 1 - (k - 1 + 1) ≤ byes then seeds[t + 1 - (k - 1 + 1) - 1]? else none)
          = (if t + 1 - k ≤ byes then seeds[t - k]? else none)
        rw [hkk, htk]
  · intro m hm
    rw [hrows] at hm
    rcases List.mem_append.mp hm with hma | hmb
    · rw [hA] at hma
      simp only [List.mem_map] at hma
      obtain ⟨p, _, rfl⟩ := hma
      exact Or.inl rfl
    · rw [hB] at hmb
      simp only [List.mem_map] at hmb
      obtain ⟨p, _, rfl⟩ := hmb
      exact Or.inr rfl

lemma create_playoff_bracket_pow2_eq (seeds : List Nat)
    (ranks : Nat → Option Nat) (firstId : Nat) (h2 : 2 ≤ seeds.length)
    (hp : isPowerOfTwoCheck seeds.length = true) :
    create_playoff_bracket seeds ranks firstId =
      { rows := create_first_round_matches seeds 1 firstId, round_setting := 1 } := by
  unfold create_playoff_bracket
  rw [if_neg (by omega), if_pos (by simp [hp])]

/-- C2: with `N ≥ 2` seeds and `N` a power of two, bracket creation builds
round 1 directly with exactly `N / 2` matches, match `k` pairing seed `k`
against seed `N + 1 - k` (so `player2` is `seeds[N - k]`), creates no
round-0 matches, and sets the current playoff round to 1. -/
theorem power_of_two_bracket_spec (seeds : List Nat) (ranks : Nat → Option Nat)
    (firstId : Nat) (h2 : 2 ≤ seeds.length)
    (hp : isPowerOfTwoCheck seeds.length = true) :
    (create_playoff_bracket seeds ranks firstId).round_setting = 1 ∧
    bracketRound (create_playoff_bracket seeds ranks firstId).rows 0 = [] ∧
    (bracketRound (create_playoff_bracket seeds ranks firstId).rows 1).length
      = seeds.length / 2 ∧
    (∀ k, 1 ≤ k → k ≤ seeds.length / 2 →
      (bracketRound (create_playoff_bracket seeds ranks firstId).rows 1).countP
          (fun m => m.match_number == some k) = 1 ∧
      ∃ m ∈ bracketRound (create_playoff_bracket seeds ranks firstId).rows 1,
        m.match_number = some k ∧
        m.player1_id = seeds[k - 1]? ∧
        m.player2_id = seeds[seeds.length - k]? ∧
        m.reported = false) ∧
    (∀ m ∈ (create_playoff_bracket seeds ranks firstId).rows,
      m.playoff_round = some 1) := by
  have hcr := create_playoff_bracket_pow2_eq seeds ranks firstId h2 hp
  set B := create_first_round_matches seeds 1 firstId with hB
  have hBmap : B = (List.range (seeds.length / 2)).map (fun slot =>
      { id := firstId + slot
        player1_id := seeds[slot]?
        player2_id := seeds[seeds.length - (slot + 1)]?
        reported := false
        playoff := true
        playoff_round := some 1
        match_number := some (slot + 1) : MatchRow }) := rfl
  have hB1 : bracketRound B 1 = B := by
    apply List.filter_eq_self.mpr
    intro m hm
    rw [hBmap] at hm
    simp only [List.mem_map] at hm
    obtain ⟨p, _, rfl⟩ := hm
    rfl
  have hB0 : bracketRound B 0 = [] := by
    apply List.filter_eq_nil_iff.mpr
    intro m hm
    rw [hBmap] at hm
    simp only [List.mem_map] at hm
    obtain ⟨p, _, rfl⟩ := hm
    simp [bracketRound]
  have hR1 : bracketRound (create_playoff_bracket seeds ranks firstId).rows 1 = B := by
    rw [hcr]
    exact hB1
  have hR0 : bracketRound (create_playoff_bracket seeds ranks firstId).rows 0 = [] := by
    rw [hcr]
    exact hB0
  refine ⟨by rw [hcr], hR0, ?_, ?_, ?_⟩
  · rw [hR1, hBmap]
    simp
  · intro k hk1 hk2
    constructor
    · rw [hR1, hBmap]
      rw [List.countP_map]
      show (List.range (seeds.length / 2)).countP (fun n => n + 1 == k) = 1
      have heq : ∀ n ∈ List.range (seeds.length / 2),
          ((n + 1 == k) = true ↔ (n == k - 1) = true) := by
        intro n _
        simp only [beq_iff_eq]
        omega
      rw [List.countP_congr heq]
      exact List.count_eq_one_of_mem (List.nodup_range _)
        (List.mem_range.mpr (by omega))
    · rw [hR1, hBmap]
      have hkk : k - 1 + 1 = k := by omega
      refine ⟨_, List.mem_map_of_mem _ (List.mem_range.mpr (by omega : k - 1 < seeds.length / 2)),
        ?_, ?_, ?_, rfl⟩
      · show some (k - 1 + 1) = some k
        rw [hkk]
      · show seeds[k - 1]? = seeds[k - 1]?
        rfl
      · show seeds[seeds.length - (k - 1 + 1)]? = seeds[seeds.length - k]?
        rw [hkk]
  · intro m hm
    rw [hcr] at hm
    rw [hBmap] at hm
    simp only [List.mem_map] at hm
    obtain ⟨p, _, rfl⟩ := hm
    rfl

lemma size_of_bounds {n k : Nat} (h1 : 2 ^ k ≤ n) (h2 : n < 2 ^ (k + 1)) :
    n.size = k + 1 :=
  le_antisymm (Nat.size_le.mpr h2) (Nat.lt_size.mpr h1)

/-- Witness for C1: a six-player field gives two play-in games (targets 3
and 4) and a round-1 with two matches, playoff round setting 0. -/
theorem play_in_bracket_spec_witness :
    2 ≤ ([10, 20, 30, 40, 50, 60] : List Nat).length ∧
    isPowerOfTwoCheck ([10, 20, 30, 40, 50, 60] : List Nat).length = false ∧
    (create_playoff_bracket [10, 20, 30, 40, 50, 60] (fun _ => none) 1).round_setting = 0 ∧
    (bracketRound (create_playoff_bracket [10, 20, 30, 40, 50, 60]
      (fun _ => none) 1).rows 0).length = 2 :=
  ⟨by decide, by decide,
    (play_in_bracket_spec [10, 20, 30, 40, 50, 60] (fun _ => none) 1 6 4 2 2
      (by decide)
      (by decide)
      (by decide) (by decide) (by decide) (by decide)).1,
    (play_in_bracket_spec [10, 20, 30, 40, 50, 60] (fun _ => none) 1 6 4 2 2
      (by decide)
      (by decide)
      (by decide) (by decide) (by decide) (by decide)).2.1⟩

/-- Witness for C2: an eight-player field gives four round-1 matches and
playoff round setting 1 (pairs (1,8)(2,7)(3,6)(4,5) per the theorem). -/
theorem power_of_two_bracket_spec_witness :
    2 ≤ ([1, 2, 3, 4, 5, 6, 7, 8] : List Nat).length ∧
    isPowerOfTwoCheck ([1, 2, 3, 4, 5, 6, 7, 8] : List Nat).length = true ∧
    (create_playoff_bracket [1, 2, 3, 4, 5, 6, 7, 8] (fun _ => none) 1).round_setting = 1 ∧
    (bracketRound (create_playoff_bracket [1, 2, 3, 4, 5, 6, 7, 8]
      (fun _ => none) 1).rows 1).length = 4 :=
  ⟨by decide, by decide,
    (power_of_two_bracket_spec [1, 2, 3, 4, 5, 6, 7, 8] (fun _ => none) 1
      (by decide) (by decide)).1,
    (power_of_two_bracket_spec [1, 2, 3, 4, 5, 6, 7, 8] (fun _ => none) 1
      (by decide) (by decide)).2.2.1⟩

/-! ## Database state and the bracket engine's stateful operations

The `matches` table, the `players` table and the `current_playoff_round`
setting are bundled into a `Db` record.  Rows are inserted with serially
increasing ids (`next_id`), `ORDER BY id` is a merge sort on ids, `UPDATE`
maps over the rows, and a commit/rollback pair either keeps or discards the
mapped rows (modelled by returning the updated or the original state). -/

structure Db where
  rows : List MatchRow := []
  players : List Nat := []
  current_playoff_round : Int := -1
  next_id : Nat := 1
  deriving Repr, DecidableEq

/-- `ORDER BY id`. -/
def sortById (ms : List MatchRow) : List MatchRow :=
  ms.insertionSort fun a b => a.id ≤ b.id

/-- `UPDATE matches SET ... WHERE id = %s`. -/
def updateRow (db : Db) (id : Nat) (f : MatchRow → MatchRow) : Db :=
  { db with rows := db.rows.map fun m => if m.id = id then f m else m }

/-- `list_round_numbers` (`app.py:3470`): distinct playoff rounds in
ascending order.  A playoff row with a null `playoff_round` would add a
NULL group whose round query matches nothing; null rounds are dropped here
(the engine always sets `playoff_round` on insert). -/
def list_round_numbers (db : Db) : List Nat :=
  (((db.rows.filter (·.playoff)).filterMap (·.playoff_round)).dedup).insertionSort
    fun a b => a ≤ b

/-- The playoff rows of one round, in stored order (the row set used both by
`get_round_matches` and by the `GROUP BY playoff_round` counts). -/
def round_match_rows (db : Db) (round_number : Nat) : List MatchRow :=
  db.rows.filter fun m => m.playoff && m.playoff_round == some round_number

/-- `get_round_matches` (`app.py:3477`): the playoff rows of one round,
ordered by id. -/
def get_round_matches (db : Db) (round_number : Nat) : List MatchRow :=
  sortById (round_match_rows db round_number)

/-- `next_round_exists` (`app.py:3502`). -/
def next_round_exists (db : Db) (round_number : Nat) : Bool :=
  db.rows.any fun m => m.playoff && m.playoff_round == some round_number

/-- Rows inserted by `create_next_round` (`app.py:3512`): winners paired in
order (`winner[0]` vs `winner[1]`, ...), a trailing odd winner becoming a
bye that is created already reported with score 0-0. -/
def nextRoundRows (winners : List Nat) (round_number : Nat) (firstId : Nat) :
    List MatchRow :=
  (List.range ((winners.length + 1) / 2)).map fun j =>
    let p2 := winners[2 * j + 1]?
    let is_bye := p2 = none
    { id := firstId + j
      player1_id := winners[2 * j]?
      player2_id := p2
      score1 := if is_bye then some 0 else none
      score2 := if is_bye then some 0 else none
      reported := if is_bye then true else false
      playoff := true
      playoff_round := some round_number
      match_number := some (j + 1) }

/-- `auto_resolve_byes` (`app.py:3326`): every reported playoff row with a
null `player2_id` and a missing aggregate score gets score 0-0. -/
def auto_resolve_byes (db : Db) : Db :=
  { db with rows := db.rows.map fun m =>
      if m.playoff && m.player2_id == none && m.reported &&
          (m.score1 == none || m.score2 == none) then
        { m with score1 := some 0, score2 := some 0 }
      else m }

/-- `create_next_round` (`app.py:3512`): insert the paired winner rows, then
run `auto_resolve_byes`. -/
def create_next_round (db : Db) (winners : List Nat) (round_number : Nat) : Db :=
  let inserted := nextRoundRows winners round_number db.next_id
  auto_resolve_byes
    { db with rows := db.rows ++ inserted, next_id := db.next_id + inserted.length }

/-- The `seed_to_winner` dict (`app.py:3369-3377` and `app.py:2461-2469`):
for each match with a truthy winner and a non-null `match_number`, map the
target seed to the winner; later entries overwrite earlier ones (modelled
by consing, with first-match lookup). -/
def buildSeedToWinner (ms : List MatchRow) : List (Nat × Nat) :=
  ms.foldl
    (fun acc m =>
      match determine_winner m with
      | none => acc
      | some w =>
        if w = 0 then acc
        else
          match m.match_number with
          | none => acc
          | some ts => (ts, w) :: acc)
    []

/-- Python dict lookup (`.get` / `in`): first match in the cons list. -/
def dictLookup (d : List (Nat × Nat)) (k : Nat) : Option Nat :=
  (d.find? fun p => p.1 == k).map (·.2)

/-- One round-1 row's fill step of `advance_playoff_winners`'s round-0
branch (`app.py:3429-3452`): skip rows with a falsy `match_number`; fill a
null slot when the corresponding seed has a truthy winner. -/
def autoFillRow (s2w : List (Nat × Nat)) (target : Nat) (acc : Db × Bool)
    (m : MatchRow) : Db × Bool :=
  match m.match_number with
  | none => acc
  | some mi =>
    if mi = 0 then acc
    else
      let seed1 := mi
      let seed2 := target + 1 - mi
      let acc1 :=
        if m.player1_id = none then
          match dictLookup s2w seed1 with
          | some w =>
            if w = 0 then acc
            else (updateRow acc.1 m.id (fun r => { r with player1_id := some w }), true)
          | none => acc
        else acc
      if m.player2_id = none then
        match dictLookup s2w seed2 with
        | some w =>
          if w = 0 then acc1
          else (updateRow acc1.1 m.id (fun r => { r with player2_id := some w }), true)
        | none => acc1
      else acc1

/-- The round-0 fill loop of `advance_playoff_winners` (`app.py:3429`). -/
def autoFillRound1 (db : Db) (round1 : List MatchRow) (s2w : List (Nat × Nat))
    (target : Nat) : Db × Bool :=
  round1.foldl (autoFillRow s2w target) (db, false)

/-- The legacy fallback fill of `advance_playoff_winners`
(`app.py:3392-3406`): winners are poured into null round-1 slots in record
order; returns the number of slots filled (`winner_index`). -/
def fallbackFillStep (winners : List Nat) (acc : Db × Nat) (m : MatchRow) :
    Db × Nat :=
  let acc1 :=
    if m.player1_id = none ∧ acc.2 < winners.length then
      (updateRow acc.1 m.id (fun r => { r with player1_id := winners[acc.2]? }),
        acc.2 + 1)
    else acc
  if m.player2_id = none ∧ acc1.2 < winners.length then
    (updateRow acc1.1 m.id (fun r => { r with player2_id := winners[acc1.2]? }),
      acc1.2 + 1)
  else acc1

def fallbackFill (db : Db) (round1 : List MatchRow) (winners : List Nat) :
    Db × Nat :=
  round1.foldl (fallbackFillStep winners) (db, 0)

/-- One round of the loop body of `advance_playoff_winners`
(`app.py:3355-3464`): returns the updated state and whether anything was
created or filled this round (the contribution to `created_next_round`). -/
def advance_round_step (db : Db) (round_number : Nat) : Db × Bool :=
  let ms := get_round_matches db round_number
  if ms.isEmpty then (db, false)
  else if ¬ round_is_complete ms then (db, false)
  else
    let winners := collect_winners ms
    if winners.isEmpty then (db, false)
    else if round_number = 0 then
      let s2w := buildSeedToWinner ms
      if s2w.isEmpty then
        let round1 := get_round_matches db 1
        if round1.isEmpty then (db, false)
        else
          let r := fallbackFill db round1 winners
          (r.1, decide (0 < r.2))
      else
        let round1 := get_round_matches db 1
        if round1.isEmpty then (db, false)
        else
          let target := round1.length * 2
          autoFillRound1 db round1 s2w target
    else
      let next := round_number + 1
      if winners.length ≤ 1 || next_round_exists db next then (db, false)
      else (create_next_round db winners next, true)

/-- One full pass of `advance_playoff_winners` over the round numbers fixed
at entry (`app.py:3352-3464`). -/
def advance_pass_step (acc : Db × Bool) (r : Nat) : Db × Bool :=
  let s := advance_round_step acc.1 r
  (s.1, acc.2 || s.2)

def advance_pass (db : Db) : Db × Bool :=
  (list_round_numbers db).foldl advance_pass_step (db, false)

/-- Recursion core of `advance_playoff_winners`, by remaining depth budget:
at depth `d` the budget is `10 - d` (`MAX_RECURSION_DEPTH = 10`); a call
with `_recursion_depth >= 10` returns immediately, which is the zero-budget
case here. -/
def advance_playoff_winners_fuel : Nat → Db → Db
  | 0, db => db
  | fuel + 1, db =>
    let p := advance_pass db
    if p.2 then advance_playoff_winners_fuel fuel p.1 else p.1

/-- `advance_playoff_winners` (`app.py:3342`): run one pass; if anything was
created, recurse at depth + 1, giving up at recursion depth 10.  The
function never touches `current_playoff_round`. -/
def advance_playoff_winners (db : Db) (depth : Nat := 0) : Db :=
  advance_playoff_winners_fuel (10 - depth) db

/-- Whether `advance_playoff_winners` reaches its fixpoint (terminates via a
pass that created nothing) rather than by hitting the depth ceiling, by
remaining depth budget. -/
def advance_terminates_fuel : Nat → Db → Bool
  | 0, _ => false
  | fuel + 1, db =>
    let p := advance_pass db
    if p.2 then advance_terminates_fuel fuel p.1 else true

/-- Fixpoint-reached predicate for an `advance_playoff_winners` call at a
given starting depth. -/
def advance_terminates (db : Db) (depth : Nat) : Bool :=
  advance_terminates_fuel (10 - depth) db

/-- One round-1 row's fill step of `admin_advance_playoff_round`'s round-0
branch (`app.py:2487-2508`): same as the automatic version but gated by
dict membership (`seed1 in seed_to_winner`) instead of value truthiness,
and skipping the `seed2` fill when the bracket size is zero (Python sets
`seed2 = None` then). -/
def adminFillRow (s2w : List (Nat × Nat)) (target : Nat) (acc : Db × Bool)
    (m : MatchRow) : Db × Bool :=
  match m.match_number with
  | none => acc
  | some mi =>
    if mi = 0 then acc
    else
      let seed1 := mi
      let acc1 :=
        if m.player1_id = none then
          match dictLookup s2w seed1 with
          | some w => (updateRow acc.1 m.id (fun r => { r with player1_id := some w }), true)
          | none => acc
        else acc
      if target ≠ 0 ∧ m.player2_id = none then
        match dictLookup s2w (target + 1 - mi) with
        | some w => (updateRow acc1.1 m.id (fun r => { r with player2_id := some w }), true)
        | none => acc1
      else acc1

/-- The winner-iterator fill of `admin_advance_playoff_round` over an
already-existing next round (`app.py:2532-2554`): pour winners into null
slots in order; an exhausted iterator breaks out of the loop. -/
def adminFillNextGo (winners : List Nat) : Db → Nat → Bool → List MatchRow → Db × Bool
  | db, _, updated, [] => (db, updated)
  | db, idx, updated, m :: rest =>
    if m.player1_id = none then
      if idx < winners.length then
        let db1 := updateRow db m.id fun r => { r with player1_id := winners[idx]? }
        if m.player2_id = none then
          if idx + 1 < winners.length then
            adminFillNextGo winners
              (updateRow db1 m.id fun r => { r with player2_id := winners[idx + 1]? })
              (idx + 2) true rest
          else (db1, true)
        else adminFillNextGo winners db1 (idx + 1) true rest
      else (db, updated)
    else
      if m.player2_id = none then
        if idx < winners.length then
          adminFillNextGo winners
            (updateRow db m.id fun r => { r with player2_id := winners[idx]? })
            (idx + 1) true rest
        else (db, updated)
      else adminFillNextGo winners db idx updated rest

/-- `admin_advance_playoff_round` (`app.py:2413`): the manual advance
action.  Rejected preconditions (inactive playoffs, empty or incomplete
round, no winners, missing round 1, nothing fillable) leave the state
unchanged; one winner crowns a champion and sets the round to -1; round 0
fills round-1 slots from the play-in targets and sets the round to 1; any
other round creates or fills the next round and advances the setting. -/
def admin_advance_playoff_round (db : Db) : Db :=
  if db.current_playoff_round < 0 then db
  else
    let current := db.current_playoff_round.toNat
    let ms := get_round_matches db current
    if ms.isEmpty then db
    else if ¬ round_is_complete ms then db
    else
      let winners := collect_winners ms
      if winners.isEmpty then db
      else if winners.length = 1 then { db with current_playoff_round := -1 }
      else if current = 0 then
        let s2w := buildSeedToWinner ms
        let round1 := get_round_matches db 1
        if round1.isEmpty then db
        else
          let target := round1.length * 2
          let r := round1.foldl (adminFillRow s2w target) (db, false)
          if ¬ r.2 then db
          else { r.1 with current_playoff_round := 1 }
      else
        let next := current + 1
        if ¬ next_round_exists db next then
          { create_next_round db winners next with current_playoff_round := (next : Int) }
        else
          let nextM := get_round_matches db next
          if nextM.isEmpty then db
          else
            let r := adminFillNextGo winners db 0 false nextM
            { r.1 with current_playoff_round := (next : Int) }

/-- The `round_counts` scan of `get_playoff_champion` (`app.py:3578-3596`):
the highest-numbered playoff round containing exactly one match. -/
def finals_round (db : Db) : Option Nat :=
  (list_round_numbers db).reverse.find? fun r =>
    (round_match_rows db r).length == 1

/-- `get_playoff_champion` (`app.py:3575`): the winner of the finals round's
single match, provided that match is reported with a non-null second
participant, `determine_winner` yields a truthy winner, and the winner
exists in the players table. -/
def get_playoff_champion (db : Db) : Option Nat :=
  match finals_round db with
  | none => none
  | some fr =>
    match (round_match_rows db fr).head? with
    | none => none
    | some fm =>
      if ¬ fm.reported ∨ fm.player2_id = none then none
      else
        match determine_winner fm with
        | none => none
        | some w =>
          if w = 0 then none
          else if w ∈ db.players then some w else none

/-! ## C10: null second participant handling -/

/-- C10: `determine_winner` returns `player1_id` for every null-`player2_id`
match regardless of the `reported` and `double_forfeit` flags;
`round_is_complete` skips every null-`player2_id` match, so a round whose
matches all lack a second participant is classified complete, and each
listed first participant is collected among the winners. -/
theorem null_player2_round_behavior (ms : List MatchRow)
    (h : ∀ m ∈ ms, m.player2_id = none)
    (h0 : ∀ m ∈ ms, m.player1_id ≠ some 0) :
    (∀ m : MatchRow, m.player2_id = none → determine_winner m = m.player1_id) ∧
    round_is_complete ms = true ∧
    collect_winners ms = ms.filterMap (fun m => m.player1_id) := by
  refine ⟨fun m hm => ?_, ?_, ?_⟩
  · unfold determine_winner
    rw [if_pos hm]
  · unfold round_is_complete
    rw [List.all_eq_true]
    intro m hm
    simp [h m hm]
  · induction ms with
    | nil => rfl
    | cons a tl ih =>
        have ha : a.player2_id = none := h a (by simp)
        have hwin : determine_winner a = a.player1_id := by
          unfold determine_winner
          rw [if_pos ha]
        have htl : collect_winners tl = tl.filterMap (fun m => m.player1_id) :=
          ih (fun m hm => h m (by simp [hm])) (fun m hm => h0 m (by simp [hm]))
        unfold collect_winners at htl ⊢
        simp only [List.foldr_cons, List.filterMap_cons, hwin]
        cases hp : a.player1_id with
        | none => simpa [hp] using htl
        | some w =>
            have hw0 : w ≠ 0 := by
              intro hw
              exact h0 a (by simp) (by rw [hp, hw])
            simpa [hp, hw0] using htl

/-- Witness rows for the null-`player2_id` round behaviour. -/
def c10rows : List MatchRow :=
  [{ id := 8, player1_id := some 5, playoff := true, playoff_round := some 1,
     match_number := some 1 },
   { id := 9, player1_id := some 7, playoff := true, playoff_round := some 1,
     match_number := some 2 }]

/-- Witness for C10: two round-1 placeholder rows with null second
participants form a round that is complete with winners `[5, 7]`. -/
theorem null_player2_round_behavior_witness :
    (∀ m ∈ c10rows, m.player2_id = none) ∧
    round_is_complete c10rows = true ∧
    collect_winners c10rows = [5, 7] :=
  ⟨by decide,
    (null_player2_round_behavior c10rows (by decide) (by decide)).2.1,
    ((null_player2_round_behavior c10rows (by decide) (by decide)).2.2).trans (by decide)⟩

/-! ## C4: bye auto-resolution -/

/-- Counterexample to C4 as stated: bracket creation for a six-player field
(a bracket-engine operation) leaves two playoff matches whose second
participant is null unreported with null scores — the round-1 placeholder
slots awaiting play-in winners. -/
theorem bye_invariant_counterexample :
    ((create_playoff_bracket [1, 2, 3, 4, 5, 6] (fun _ => none) 1).rows.filter
      (fun m => m.playoff && m.player2_id == none && !m.reported &&
        m.score1 == none)).length = 2 := by
  decide

/-- C4 (amended): rows created by `create_next_round` with a null second
participant are reported with score 0-0 from the moment of creation, and
`auto_resolve_byes` leaves every reported null-`player2_id` playoff row
with both aggregate scores present. -/
theorem create_next_round_bye_resolution (db : Db) (winners : List Nat)
    (r : Nat) :
    (∀ m ∈ (create_next_round db winners r).rows, m ∉ db.rows →
      m.player2_id = none →
      m.reported = true ∧ m.score1 = some 0 ∧ m.score2 = some 0) ∧
    (∀ db' : Db, ∀ m ∈ (auto_resolve_byes db').rows,
      m.playoff = true → m.player2_id = none → m.reported = true →
      m.score1 ≠ none ∧ m.score2 ≠ none) := by
  have hauto : ∀ db' : Db, ∀ m ∈ (auto_resolve_byes db').rows,
      m.playoff = true → m.player2_id = none → m.reported = true →
      m.score1 ≠ none ∧ m.score2 ≠ none := by
    intro db' m hm hpf hp2 hrep
    unfold auto_resolve_byes at hm
    simp only [List.mem_map] at hm
    obtain ⟨x, hx, rfl⟩ := hm
    by_cases hc : (x.playoff && x.player2_id == none && x.reported &&
        (x.score1 == none || x.score2 == none)) = true
    · rw [if_pos hc] at hpf hp2 hrep ⊢
      exact ⟨by simp, by simp⟩
    · rw [if_neg hc] at hpf hp2 hrep ⊢
      have hns : ¬(x.score1 = none ∨ x.score2 = none) := by
        intro hor
        apply hc
        simp only [Bool.and_eq_true, Bool.or_eq_true, beq_iff_eq]
        refine ⟨⟨⟨hpf, hp2⟩, hrep⟩, ?_⟩
        rcases hor with h1 | h2
        · exact Or.inl h1
        · exact Or.inr h2
      push_neg at hns
      exact hns
  refine ⟨?_, hauto⟩
  intro m hm hnotin hp2
  unfold create_next_round at hm
  unfold auto_resolve_byes at hm
  simp only [List.mem_map] at hm
  obtain ⟨x, hx, rfl⟩ := hm
  by_cases hc : (x.playoff && x.player2_id == none && x.reported &&
      (x.score1 == none || x.score2 == none)) = true
  · rw [if_pos hc] at hp2 ⊢
    simp only [Bool.and_eq_true, Bool.or_eq_true, beq_iff_eq] at hc
    exact ⟨hc.1.2, rfl, rfl⟩
  · rw [if_neg hc] at hnotin hp2 ⊢
    rcases List.mem_append.mp hx with hold | hnew
    · exact absurd hold hnotin
    · simp only [nextRoundRows, List.mem_map, List.mem_range] at hnew
      obtain ⟨j, hj, rfl⟩ := hnew
      have hp2' : winners[2 * j + 1]? = none := hp2
      refine ⟨?_, ?_, ?_⟩ <;> simp [hp2']

/-- The trailing-bye row created by `create_next_round` on an empty state
with winners `[7, 8, 9]` in round 2. -/
def c4byeRow : MatchRow :=
  { id := 2, player1_id := some 9, score1 := some 0, score2 := some 0,
    reported := true, playoff := true, playoff_round := some 2,
    match_number := some 2 }

/-- Witness for the amended C4: the odd trailing winner's bye row is
created already reported with score 0-0. -/
theorem create_next_round_bye_resolution_witness :
    c4byeRow ∈ (create_next_round {} [7, 8, 9] 2).rows ∧
    c4byeRow.player2_id = none ∧
    c4byeRow.reported = true ∧ c4byeRow.score1 = some 0 ∧ c4byeRow.score2 = some 0 :=
  ⟨by decide, by decide,
    (create_next_round_bye_resolution {} [7, 8, 9] 2).1 c4byeRow
      (by decide) (by decide) (by decide)⟩

/-! ## C3: idempotence of round advancement -/

lemma autoFillRow_cases (s2w : List (Nat × Nat)) (target : Nat)
    (acc : Db × Bool) (m : MatchRow) :
    autoFillRow s2w target acc m = acc ∨ (autoFillRow s2w target acc m).2 = true := by
  unfold autoFillRow
  dsimp only
  repeat' split
  all_goals first
    | exact Or.inl rfl
    | exact Or.inr rfl

lemma foldl_autoFillRow_false (s2w : List (Nat × Nat)) (target : Nat) :
    ∀ (l : List MatchRow) (acc : Db × Bool),
      (l.foldl (autoFillRow s2w target) acc).2 = false →
      l.foldl (autoFillRow s2w target) acc = acc := by
  intro l
  induction l with
  | nil => intro acc _; rfl
  | cons m tl ih =>
      intro acc h
      simp only [List.foldl_cons] at h ⊢
      have h2 := ih (autoFillRow s2w target acc m) h
      rw [h2] at h ⊢
      rcases autoFillRow_cases s2w target acc m with he | ht
      · rw [he]
      · rw [ht] at h
        exact absurd h (by simp)

lemma fallbackFillStep_cases (winners : List Nat) (acc : Db × Nat) (m : MatchRow) :
    fallbackFillStep winners acc m = acc ∨ acc.2 < (fallbackFillStep winners acc m).2 := by
  unfold fallbackFillStep
  dsimp only
  repeat' split
  all_goals first
    | exact Or.inl rfl
    | (refine Or.inr ?_; simp; omega)
    | (refine Or.inr ?_; omega)

lemma foldl_fallback_mono (winners : List Nat) :
    ∀ (l : List MatchRow) (acc : Db × Nat),
      acc.2 ≤ (l.foldl (fallbackFillStep winners) acc).2 := by
  intro l
  induction l with
  | nil => intro acc; exact le_rfl
  | cons m tl ih =>
      intro acc
      simp only [List.foldl_cons]
      refine le_trans ?_ (ih (fallbackFillStep winners acc m))
      rcases fallbackFillStep_cases winners acc m with he | hlt
      · rw [he]
      · omega

lemma foldl_fallback_const (winners : List Nat) :
    ∀ (l : List MatchRow) (acc : Db × Nat),
      (l.foldl (fallbackFillStep winners) acc).2 = acc.2 →
      l.foldl (fallbackFillStep winners) acc = acc := by
  intro l
  induction l with
  | nil => intro acc _; rfl
  | cons m tl ih =>
      intro acc h
      simp only [List.foldl_cons] at h ⊢
      have hmono := foldl_fallback_mono winners tl (fallbackFillStep winners acc m)
      have hstep : fallbackFillStep winners acc m = acc := by
        rcases fallbackFillStep_cases winners acc m with he | hlt
        · exact he
        · omega
      rw [hstep] at h ⊢
      exact ih acc h

lemma advance_round_step_false (db : Db) (r : Nat) :
    (advance_round_step db r).2 = false → (advance_round_step db r).1 = db := by
  unfold advance_round_step
  dsimp only
  repeat' split
  all_goals intro h
  all_goals try rfl
  all_goals first
    | (simp at h
       done)
    | (simp only [decide_eq_false_iff_not, Nat.not_lt, Nat.le_zero] at h
       exact congrArg Prod.fst (foldl_fallback_const
         (collect_winners (get_round_matches db r))
         (get_round_matches db 1) (db, 0) h))
    | (exact congrArg Prod.fst (foldl_autoFillRow_false
         (buildSeedToWinner (get_round_matches db r))
         ((get_round_matches db 1).length * 2)
         (get_round_matches db 1) (db, false) h))

lemma foldl_pass_false :
    ∀ (l : List Nat) (acc : Db × Bool),
      (l.foldl advance_pass_step acc).2 = false →
      l.foldl advance_pass_step acc = acc := by
  intro l
  induction l with
  | nil => intro acc _; rfl
  | cons r tl ih =>
      intro acc h
      simp only [List.foldl_cons] at h ⊢
      have h2 := ih (advance_pass_step acc r) h
      rw [h2] at h ⊢
      unfold advance_pass_step at h ⊢
      dsimp only at h ⊢
      rw [Bool.or_eq_false_iff] at h
      obtain ⟨ha, hs⟩ := h
      rw [advance_round_step_false acc.1 r hs, hs, Bool.or_false]

lemma advance_pass_false (db : Db) (h : (advance_pass db).2 = false) :
    (advance_pass db).1 = db := by
  unfold advance_pass at h ⊢
  rw [foldl_pass_false (list_round_numbers db) (db, false) h]

lemma advance_fix_aux :
    ∀ (fuel : Nat) (db : Db), advance_terminates_fuel fuel db = true →
      advance_pass (advance_playoff_winners_fuel fuel db)
        = (advance_playoff_winners_fuel fuel db, false) := by
  intro fuel
  induction fuel with
  | zero =>
      intro db ht
      exact absurd ht (by simp [advance_terminates_fuel])
  | succ f ih =>
      intro db ht
      unfold advance_terminates_fuel at ht
      unfold advance_playoff_winners_fuel
      dsimp only at ht ⊢
      by_cases hp : (advance_pass db).2 = true
      · rw [if_pos hp] at ht ⊢
        exact ih _ ht
      · have hp' : (advance_pass db).2 = false := by
          revert hp
          cases (advance_pass db).2 <;> simp
        rw [if_neg hp] at ht ⊢
        have h1 : (advance_pass db).1 = db := advance_pass_false db hp'
        rw [h1]
        calc advance_pass db = ((advance_pass db).1, (advance_pass db).2) := rfl
          _ = (db, false) := by rw [h1, hp']

lemma advance_fuel_idem :
    ∀ (fuel : Nat) (db : Db), advance_terminates_fuel fuel db = true →
      ∀ fuel2 : Nat,
        advance_playoff_winners_fuel (fuel2 + 1) (advance_playoff_winners_fuel fuel db)
          = advance_playoff_winners_fuel fuel db := by
  intro fuel db ht fuel2
  have hfix := advance_fix_aux fuel db ht
  conv_lhs => rw [advance_playoff_winners_fuel]
  rw [hfix]
  simp

/-- C3 (amended): the automatic `advance_playoff_winners` is idempotent
whenever its first invocation reaches a fixpoint rather than the
recursion-depth ceiling: a second invocation with no new reports leaves the
whole state — matches and the untouched round setting — unchanged.  (The
admin advance action is not idempotent in general; see the
counterexample.) -/
theorem advance_playoff_winners_idempotent (db : Db)
    (h : advance_terminates db 0 = true) :
    advance_playoff_winners (advance_playoff_winners db 0) 0
      = advance_playoff_winners db 0 :=
  advance_fuel_idem (10 - 0) db h 9

/-- A reachable bracket state for a 15-player field (seeds are player ids):
byes = 1, play-in targets 2..8 (created in descending target order), round-1
placeholders with null slots for all seeds beyond the bye.  Targets 2, 3
and 4 have reported winners; targets 5..8 were double forfeits.  The
current playoff round is 0 (play-ins just completed). -/
def c3db : Db :=
  { rows :=
    [{ id := 1, player1_id := some 8, player2_id := some 9, reported := true,
       double_forfeit := true, playoff := true, playoff_round := some 0,
       match_number := some 8 },
     { id := 2, player1_id := some 7, player2_id := some 10, reported := true,
       double_forfeit := true, playoff := true, playoff_round := some 0,
       match_number := some 7 },
     { id := 3, player1_id := some 6, player2_id := some 11, reported := true,
       double_forfeit := true, playoff := true, playoff_round := some 0,
       match_number := some 6 },
     { id := 4, player1_id := some 5, player2_id := some 12, reported := true,
       double_forfeit := true, playoff := true, playoff_round := some 0,
       match_number := some 5 },
     { id := 5, player1_id := some 4, player2_id := some 13, score1 := some 11,
       score2 := some 5, reported := true, playoff := true,
       playoff_round := some 0, match_number := some 4 },
     { id := 6, player1_id := some 3, player2_id := some 14, score1 := some 11,
       score2 := some 5, reported := true, playoff := true,
       playoff_round := some 0, match_number := some 3 },
     { id := 7, player1_id := some 2, player2_id := some 15, score1 := some 11,
       score2 := some 5, reported := true, playoff := true,
       playoff_round := some 0, match_number := some 2 },
     { id := 8, player1_id := some 1, playoff := true, playoff_round := some 1,
       match_number := some 1 },
     { id := 9, playoff := true, playoff_round := some 1, match_number := some 2 },
     { id := 10, playoff := true, playoff_round := some 1, match_number := some 3 },
     { id := 11, playoff := true, playoff_round := some 1, match_number := some 4 }],
    players := [1, 2, 3, 4, 5, 6, 7, 8, 9, 10, 11, 12, 13, 14, 15],
    current_playoff_round := 0,
    next_id := 12 }

/-- Counterexample to C3 as stated: the admin advance-round action invoked
twice in a row with no new score reports changes state on the second
invocation.  After the first call (which fills the play-in winners and
opens round 1), every round-1 match still has a null second participant, so
the second call sees round 1 as complete and creates round 2: two new
matches appear and the round setting moves again. -/
theorem admin_advance_not_idempotent_counterexample :
    admin_advance_playoff_round (admin_advance_playoff_round c3db)
      ≠ admin_advance_playoff_round c3db ∧
    (admin_advance_playoff_round c3db).rows.length = 11 ∧
    (admin_advance_playoff_round c3db).current_playoff_round = 1 ∧
    (admin_advance_playoff_round (admin_advance_playoff_round c3db)).rows.length = 13 ∧
    (admin_advance_playoff_round
      (admin_advance_playoff_round c3db)).current_playoff_round = 2 := by
  refine ⟨by decide, by decide, by decide, by decide, by decide⟩

/-- A round-1 state with both matches reported: the first invocation of the
automatic advancement creates round 2 and reaches its fixpoint. -/
def c3auto : Db :=
  { rows :=
    [{ id := 1, player1_id := some 1, player2_id := some 2, score1 := some 11,
       score2 := some 5, reported := true, playoff := true,
       playoff_round := some 1, match_number := some 1 },
     { id := 2, player1_id := some 3, player2_id := some 4, score1 := some 5,
       score2 := some 11, reported := true, playoff := true,
       playoff_round := some 1, match_number := some 2 }],
    players := [1, 2, 3, 4],
    current_playoff_round := 1,
    next_id := 3 }

/-- Witness for the amended C3: on `c3auto` the first automatic advancement
reaches its fixpoint, and a second invocation is the identity. -/
theorem advance_playoff_winners_idempotent_witness :
    advance_terminates c3auto 0 = true ∧
    advance_playoff_winners (advance_playoff_winners c3auto 0) 0
      = advance_playoff_winners c3auto 0 :=
  ⟨by decide, advance_playoff_winners_idempotent c3auto (by decide)⟩

/-! ## C5: champion lookup -/

lemma list_round_numbers_sorted (db : Db) :
    (list_round_numbers db).Pairwise (· ≤ ·) := by
  unfold list_round_numbers
  exact List.sorted_insertionSort _ _

lemma mem_list_round_numbers {db : Db} {r : Nat} :
    r ∈ list_round_numbers db ↔
      ∃ m ∈ db.rows, m.playoff = true ∧ m.playoff_round = some r := by
  unfold list_round_numbers
  rw [(List.perm_insertionSort _ _).mem_iff, List.mem_dedup]
  simp only [List.mem_filterMap, List.mem_filter]
  constructor
  · rintro ⟨m, ⟨hm, hpf⟩, hr⟩
    exact ⟨m, hm, hpf, hr⟩
  · rintro ⟨m, hm, hpf, hr⟩
    exact ⟨m, ⟨hm, hpf⟩, hr⟩

lemma round_count_one_mem {db : Db} {r : Nat}
    (h : (round_match_rows db r).length = 1) : r ∈ list_round_numbers db := by
  obtain ⟨m, hm⟩ := List.length_eq_one.mp h
  have hmem : m ∈ round_match_rows db r := by rw [hm]; exact List.mem_cons_self _ _
  unfold round_match_rows at hmem
  rw [List.mem_filter] at hmem
  obtain ⟨hrow, hpred⟩ := hmem
  simp only [Bool.and_eq_true, beq_iff_eq] at hpred
  exact mem_list_round_numbers.mpr ⟨m, hrow, hpred.1, hpred.2⟩

lemma find?_reverse_max {l : List Nat} (hs : l.Pairwise (· ≤ ·))
    {p : Nat → Bool} {r : Nat} (h : l.reverse.find? p = some r) :
    p r = true ∧ ∀ x ∈ l, p x = true → x ≤ r := by
  obtain ⟨hp, as, bs, hsplit, hfail⟩ := List.find?_eq_some.mp h
  refine ⟨hp, ?_⟩
  intro x hx hpx
  have hxr : x ∈ as ++ r :: bs := by
    rw [← hsplit]
    exact List.mem_reverse.mpr hx
  rcases List.mem_append.mp hxr with hxa | hxb
  · have := hfail x hxa
    rw [hpx] at this
    exact absurd this (by simp)
  · rcases List.mem_cons.mp hxb with rfl | hxbs
    · exact le_rfl
    · have hrev : (l.reverse).Pairwise (fun a b => b ≤ a) := by
        rw [List.pairwise_reverse]
        exact hs
      rw [hsplit] at hrev
      have hcons := (List.pairwise_append.mp hrev).2.1
      exact (List.pairwise_cons.mp hcons).1 x hxbs

/-- C5 (amended): the champion lookup returns a player exactly when the
HIGHEST-numbered playoff round containing exactly one match has that match
reported with a non-null second participant and a strict truthy winner
registered in the players table.  (The code scans the per-round counts in
descending round order, not a unique single-match round.)  The hypothesis
`hwf` records that every playoff row carries its round, as the engine
guarantees on insert. -/
theorem get_playoff_champion_spec (db : Db) (p : Nat)
    (hwf : ∀ m ∈ db.rows, m.playoff = true → m.playoff_round ≠ none) :
    get_playoff_champion db = some p ↔
      ∃ r fm, round_match_rows db r = [fm] ∧
        (∀ r' : Nat, (round_match_rows db r').length = 1 → r' ≤ r) ∧
        fm.reported = true ∧ fm.player2_id ≠ none ∧
        determine_winner fm = some p ∧ p ≠ 0 ∧ p ∈ db.players := by
  constructor
  · intro h
    unfold get_playoff_champion at h
    cases hfr : finals_round db with
    | none => rw [hfr] at h; exact absurd h (by simp)
    | some fr =>
      rw [hfr] at h
      dsimp only at h
      cases hhd : (round_match_rows db fr).head? with
      | none => rw [hhd] at h; exact absurd h (by simp)
      | some fm =>
        rw [hhd] at h
        dsimp only at h
        by_cases hcond : ¬ fm.reported = true ∨ fm.player2_id = none
        · rw [if_pos hcond] at h; exact absurd h (by simp)
        · rw [if_neg hcond] at h
          push_neg at hcond
          cases hw : determine_winner fm with
          | none => rw [hw] at h; exact absurd h (by simp)
          | some w =>
            rw [hw] at h
            dsimp only at h
            by_cases hw0 : w = 0
            · rw [if_pos hw0] at h; exact absurd h (by simp)
            · rw [if_neg hw0] at h
              by_cases hmem : w ∈ db.players
              · rw [if_pos hmem] at h
                have hwp : w = p := by
                  injection h
                subst hwp
                unfold finals_round at hfr
                have hmax := find?_reverse_max (list_round_numbers_sorted db) hfr
                have hlen : (round_match_rows db fr).length = 1 := by
                  have := hmax.1
                  simpa [beq_iff_eq] using this
                obtain ⟨a, ha⟩ := List.length_eq_one.mp hlen
                have hafm : a = fm := by
                  rw [ha] at hhd
                  injection hhd
                subst hafm
                refine ⟨fr, a, ha, ?_, hcond.1, hcond.2, hw, hw0, hmem⟩
                intro r' hr'
                exact hmax.2 r' (round_count_one_mem hr') (by simp [hr'])
              · rw [if_neg hmem] at h; exact absurd h (by simp)
  · rintro ⟨r, fm, hr, hmax, hrep, hp2, hwin, hp0, hmem⟩
    have hrlen : (round_match_rows db r).length = 1 := by rw [hr]; rfl
    have hrin : r ∈ list_round_numbers db := round_count_one_mem hrlen
    have hsome : (((list_round_numbers db).reverse).find?
        (fun x => (round_match_rows db x).length == 1)).isSome := by
      rw [List.find?_isSome]
      exact ⟨r, List.mem_reverse.mpr hrin, by simp [hrlen]⟩
    obtain ⟨fr, hfr⟩ := Option.isSome_iff_exists.mp hsome
    have hmax' := find?_reverse_max (list_round_numbers_sorted db) hfr
    have hfr_len : (round_match_rows db fr).length = 1 := by
      have := hmax'.1
      simpa [beq_iff_eq] using this
    have hfreq : fr = r := by
      have h1 : fr ≤ r := hmax fr hfr_len
      have h2 : r ≤ fr := hmax'.2 r hrin (by simp [hrlen])
      omega
    subst hfreq
    unfold get_playoff_champion
    have hfr' : finals_round db = some fr := hfr
    rw [hfr']
    dsimp only
    rw [show (round_match_rows db fr).head? = some fm by rw [hr]; rfl]
    dsimp only
    rw [if_neg (by push_neg; exact ⟨hrep, hp2⟩)]
    rw [hwin]
    dsimp only
    rw [if_neg hp0, if_pos hmem]

/-- A bracket state with two single-match rounds: a lone play-in (round 0)
and a final (round 1), both reported. -/
def c5db : Db :=
  { rows :=
    [{ id := 1, player1_id := some 11, player2_id := some 12, score1 := some 11,
       score2 := some 5, reported := true, playoff := true,
       playoff_round := some 0, match_number := some 1 },
     { id := 2, player1_id := some 11, player2_id := some 21, score1 := some 5,
       score2 := some 11, reported := true, playoff := true,
       playoff_round := some 1, match_number := some 1 }],
    players := [11, 12, 21],
    current_playoff_round := -1,
    next_id := 3 }

/-- Counterexample to C5 as stated: in `c5db` no unique single-match round
exists (rounds 0 and 1 both contain exactly one match), yet the champion
lookup returns player 21 — the code takes the highest single-match round,
it does not require uniqueness. -/
theorem champion_unique_round_counterexample :
    get_playoff_champion c5db = some 21 ∧
    (round_match_rows c5db 0).length = 1 ∧
    (round_match_rows c5db 1).length = 1 ∧ (0 : Nat) ≠ 1 := by
  refine ⟨by decide, by decide, by decide, by decide⟩

/-- Witness for the amended C5: on `c5db` the highest single-match round is
round 1, whose reported final yields champion 21 via the theorem. -/
theorem get_playoff_champion_spec_witness :
    get_playoff_champion c5db = some 21 :=
  (get_playoff_champion_spec c5db 21 (by decide)).mpr
    ⟨1, { id := 2, player1_id := some 11, player2_id := some 21,
          score1 := some 5, score2 := some 11, reported := true, playoff := true,
          playoff_round := some 1, match_number := some 1 },
      by decide,
      by
        intro r' h
        rcases Nat.lt_or_ge r' 2 with hlt | hge
        · omega
        · exfalso
          have hnil : round_match_rows c5db r' = [] := by
            unfold round_match_rows
            apply List.filter_eq_nil_iff.mpr
            intro m hm
            simp only [c5db, List.mem_cons, List.not_mem_nil, or_false] at hm
            rcases hm with rfl | rfl
            · simp only [Bool.and_eq_true, beq_iff_eq, not_and]
              intro _ hc
              have : r' = 0 := by
                injection hc.symm
              omega
            · simp only [Bool.and_eq_true, beq_iff_eq, not_and]
              intro _ hc
              have : r' = 1 := by
                injection hc.symm
              omega
          rw [hnil] at h
          exact absurd h (by simp),
      by decide, by decide, by decide, by decide, by decide⟩

/-! ## C6: the standings fold (`apply_match_to_stats`, `app.py:2789`) -/

/-- One player's accumulating standings row. -/
structure PlayerStat where
  wins : Nat := 0
  losses : Nat := 0
  point_diff : Int := 0
  points_scored : Int := 0
  deriving Repr, DecidableEq

/-- The `stats` dict: player id to stat row (absent = not tracked). -/
def StatsMap : Type := Nat → Option PlayerStat

/-- One in-place mutation of a tracked player's row.  Sequential updates on
the map reproduce Python's aliasing when both participants are the same
dict entry. -/
def bumpStat (stats : StatsMap) (pid : Nat) (f : PlayerStat → PlayerStat) : StatsMap :=
  fun q => if q = pid then (stats q).map f else stats q

/-- `apply_match_to_stats` (`app.py:2789`): skip matches whose participants
are not both tracked; a double forfeit adds a loss to each side and no
points; otherwise add aggregate points and point differential to both
sides, then award win/loss by game wins when per-game data exists (note the
bare `else`: the second side gets the win when game wins are equal),
falling back to strict aggregate comparison, with nothing awarded on an
aggregate tie. -/
def apply_match_to_stats (stats : StatsMap) (m : MatchRow) : StatsMap :=
  match m.player1_id, m.player2_id with
  | some pid1, some pid2 =>
    if (stats pid1).isSome && (stats pid2).isSome then
      if m.double_forfeit then
        bumpStat (bumpStat stats pid1 fun s => { s with losses := s.losses + 1 })
          pid2 fun s => { s with losses := s.losses + 1 }
      else
        let scores := extract_game_scores m
        let t := aggregate_match_points m
        let stats1 := bumpStat stats pid1 fun s =>
          { s with points_scored := s.points_scored + t.1 }
        let stats2 := bumpStat stats1 pid2 fun s =>
          { s with points_scored := s.points_scored + t.2 }
        let stats3 := bumpStat stats2 pid1 fun s =>
          { s with point_diff := s.point_diff + (t.1 - t.2) }
        let stats4 := bumpStat stats3 pid2 fun s =>
          { s with point_diff := s.point_diff + (t.2 - t.1) }
        if scores ≠ [] then
          let wins := calculate_game_wins scores
          if wins.1 > wins.2 then
            bumpStat (bumpStat stats4 pid1 fun s => { s with wins := s.wins + 1 })
              pid2 fun s => { s with losses := s.losses + 1 }
          else
            bumpStat (bumpStat stats4 pid2 fun s => { s with wins := s.wins + 1 })
              pid1 fun s => { s with losses := s.losses + 1 }
        else if t.1 ≠ t.2 then
          if t.1 > t.2 then
            bumpStat (bumpStat stats4 pid1 fun s => { s with wins := s.wins + 1 })
              pid2 fun s => { s with losses := s.losses + 1 }
          else
            bumpStat (bumpStat stats4 pid2 fun s => { s with wins := s.wins + 1 })
              pid1 fun s => { s with losses := s.losses + 1 }
        else stats4
    else stats
  | _, _ => stats

/-- A stats map tracking players 1 and 2 with zeroed rows. -/
def c6stats : StatsMap := fun q => if q = 1 ∨ q = 2 then some {} else none

/-- A reported match whose per-game data ties at one game win each
(rejected by score validation, but processable by the fold). -/
def c6match : MatchRow :=
  { id := 1, week := some 1, player1_id := some 1, player2_id := some 2,
    score1 := some 16, score2 := some 16,
    game1_score1 := some 11, game1_score2 := some 5,
    game2_score1 := some 5, game2_score2 := some 11,
    reported := true }

/-- Counterexample to C6 as stated: on a match with tied game wins (1-1),
the fold awards the win to the second side and the loss to the first —
a win is granted without strictly more game wins, and the tie is not
treated as contributing no win and no loss. -/
theorem stats_game_wins_tie_counterexample :
    calculate_game_wins (extract_game_scores c6match) = (1, 1) ∧
    apply_match_to_stats c6stats c6match 2 =
      some { wins := 1, losses := 0, point_diff := 0, points_scored := 16 } ∧
    apply_match_to_stats c6stats c6match 1 =
      some { wins := 0, losses := 1, point_diff := 0, points_scored := 16 } := by
  refine ⟨by decide, by decide, by decide⟩

/-- C6 (amended): for a qualifying match with both participants tracked and
distinct, a double forfeit adds exactly one loss per side and no points;
otherwise aggregate points and differential are added to both sides, and
the win/loss pair is decided by game wins when per-game data exists — the
first side wins iff it has strictly more game wins, the second side is
awarded the win otherwise (including the tied case excluded by score
validation) — falling back to strict aggregate comparison with nothing
awarded on an aggregate tie; untracked ids and bystanders are untouched. -/
theorem apply_match_to_stats_spec (stats : StatsMap) (m : MatchRow)
    (p1 p2 : Nat) (s1 s2 : PlayerStat) (t1 t2 : Int) (w1 w2 : Nat)
    (h1 : m.player1_id = some p1) (h2 : m.player2_id = some p2)
    (hne : p1 ≠ p2) (hs1 : stats p1 = some s1) (hs2 : stats p2 = some s2)
    (ht : aggregate_match_points m = (t1, t2))
    (hw : calculate_game_wins (extract_game_scores m) = (w1, w2)) :
    (∀ q, q ≠ p1 → q ≠ p2 → apply_match_to_stats stats m q = stats q) ∧
    (m.double_forfeit = true →
      apply_match_to_stats stats m p1 = some { s1 with losses := s1.losses + 1 } ∧
      apply_match_to_stats stats m p2 = some { s2 with losses := s2.losses + 1 }) ∧
    (m.double_forfeit = false →
      apply_match_to_stats stats m p1 = some
        { wins := s1.wins +
            (if extract_game_scores m ≠ [] then (if w1 > w2 then 1 else 0)
              else if t1 > t2 then 1 else 0),
          losses := s1.losses +
            (if extract_game_scores m ≠ [] then (if w1 > w2 then 0 else 1)
              else if t2 > t1 then 1 else 0),
          point_diff := s1.point_diff + (t1 - t2),
          points_scored := s1.points_scored + t1 } ∧
      apply_match_to_stats stats m p2 = some
        { wins := s2.wins +
            (if extract_game_scores m ≠ [] then (if w1 > w2 then 0 else 1)
              else if t2 > t1 then 1 else 0),
          losses := s2.losses +
            (if extract_game_scores m ≠ [] then (if w1 > w2 then 1 else 0)
              else if t1 > t2 then 1 else 0),
          point_diff := s2.point_diff + (t2 - t1),
          points_scored := s2.points_scored + t2 }) := by
  have hp12 : p1 ≠ p2 := hne
  have hp21 : p2 ≠ p1 := fun h => hne h.symm
  refine ⟨?_, ?_, ?_⟩
  · intro q hq1 hq2
    unfold apply_match_to_stats
    rw [h1, h2]
    dsimp only
    by_cases hdf : m.double_forfeit <;>
      by_cases hsc : extract_game_scores m = [] <;>
        (try simp [hs1, hs2, hdf, bumpStat, hq1, hq2, hsc, ht, hw]) <;>
          (try (split <;> (try simp [bumpStat, hq1, hq2]))) <;>
            (try (split <;> (try simp [bumpStat, hq1, hq2])))
  · intro hdf
    unfold apply_match_to_stats
    rw [h1, h2]
    constructor <;> simp [hs1, hs2, hdf, bumpStat, hp12, hp21]
  · intro hdf
    unfold apply_match_to_stats
    rw [h1, h2]
    by_cases hsc : extract_game_scores m = []
    · by_cases hta : t1 = t2
      · constructor <;>
          simp [hs1, hs2, hdf, bumpStat, hp12, hp21, hsc, ht, hta, lt_irrefl]
      · by_cases htb : t1 > t2
        · constructor <;>
            simp [hs1, hs2, hdf, bumpStat, hp12, hp21, hsc, ht, hta, htb, not_lt.mpr (le_of_lt htb)]
        · have htc : t2 > t1 := by omega
          constructor <;>
            simp [hs1, hs2, hdf, bumpStat, hp12, hp21, hsc, ht, hta, htb, htc]
    · by_cases hwb : w1 > w2
      · constructor <;>
          simp [hs1, hs2, hdf, bumpStat, hp12, hp21, hsc, ht, hw, hwb]
      · constructor <;>
          simp [hs1, hs2, hdf, bumpStat, hp12, hp21, hsc, ht, hw, hwb]

/-- A reported match with a decisive 2-0 game record (11-5, 11-7). -/
def c6decis : MatchRow :=
  { id := 2, week := some 1, player1_id := some 1, player2_id := some 2,
    score1 := some 22, score2 := some 12,
    game1_score1 := some 11, game1_score2 := some 5,
    game2_score1 := some 11, game2_score2 := some 7,
    reported := true }

/-- Witness for the amended C6: on a decisive match the first side gets the
win, a point differential of 10 and 22 points scored. -/
theorem apply_match_to_stats_spec_witness :
    apply_match_to_stats c6stats c6decis 1 =
      some { wins := 1, losses := 0, point_diff := 10, points_scored := 22 } :=
  ((apply_match_to_stats_spec c6stats c6decis 1 2 {} {} 22 12 2 0
      (by decide) (by decide) (by decide) (by decide) (by decide) (by decide)
      (by decide)).2.2 (by decide)).1.trans (by decide)

/-! ## C8: score reporting (`report_match`, `app.py:1483`) -/

/-- `validate_best_of_three` (`app.py:805`): at least two games, at most two
wins per side, a strict winner reaching two game wins. -/
def validate_best_of_three (scores : List (Int × Int)) :
    Except String (Nat × Nat) :=
  if scores.length < 2 then
    .error "Best-of-three requires at least two completed games."
  else
    let wins := calculate_game_wins scores
    if wins.1 > 2 ∨ wins.2 > 2 then
      .error "Best-of-three only allows up to two wins per player."
    else if wins.1 = wins.2 then
      .error "Please enter a decisive match winner."
    else if wins.1 < 2 ∧ wins.2 < 2 then
      .error "Winner must reach two game wins in best-of-three play."
    else if wins.1 ≥ 2 ∧ wins.2 ≥ 2 then
      .error "Only one player can win two games in best-of-three."
    else .ok wins

/-- Python truthiness of the nullable `week` column (`if match["week"]`):
both NULL and 0 are falsy. -/
def weekTruthy : Option Nat → Bool
  | none => false
  | some w => w != 0

/-- The POST path of `report_match` (`app.py:1483-1570`) for an existing
match row, given already-parsed game scores: the gating checks in source
order (bye, closed or future playoff round, future or past week, double
forfeit), then score validation, then the unconditional UPDATE that
overwrites scores and sets `reported = 1`, `double_forfeit = 0`.  The
comparison of a playoff row's NULL `playoff_round` would raise in Python
(the engine always sets it); it is modelled as 0.  There is no check of the
row's existing `reported` flag anywhere on this path. -/
def report_match_post (m : MatchRow) (current_week : Nat)
    (current_playoff_round : Int) (game_scores : List (Int × Int)) :
    Except String MatchRow :=
  if m.player2_id = none then .error "Byes do not require score reports."
  else if m.playoff ∧ current_playoff_round < 0 then
    .error "Playoff reporting is currently closed."
  else if m.playoff ∧ ((m.playoff_round.getD 0 : Int) > current_playoff_round) then
    .error "This playoff round is not open for reporting yet."
  else if weekTruthy m.week ∧ ¬ m.playoff ∧ m.week.getD 0 > current_week then
    .error "This match is not yet open for reporting."
  else if weekTruthy m.week ∧ ¬ m.playoff ∧
      (m.week.getD 0 < current_week ∨ m.double_forfeit) then
    .error "Reporting for this match has closed."
  else
    match validate_best_of_three game_scores with
    | .error e => .error e
    | .ok _ =>
      .ok { m with
        score1 := some (game_scores.foldr (fun s acc => s.1 + acc) 0),
        score2 := some (game_scores.foldr (fun s acc => s.2 + acc) 0),
        game1_score1 := (game_scores[0]?).map Prod.fst,
        game1_score2 := (game_scores[0]?).map Prod.snd,
        game2_score1 := (game_scores[1]?).map Prod.fst,
        game2_score2 := (game_scores[1]?).map Prod.snd,
        game3_score1 := (game_scores[2]?).map Prod.fst,
        game3_score2 := (game_scores[2]?).map Prod.snd,
        reported := true,
        double_forfeit := false }

/-- An already-reported current-week match (22-16 over games 11-7, 11-9). -/
def c8match : MatchRow :=
  { id := 1, week := some 1, player1_id := some 1, player2_id := some 2,
    score1 := some 22, score2 := some 16,
    game1_score1 := some 11, game1_score2 := some 7,
    game2_score1 := some 11, game2_score2 := some 9,
    reported := true }

/-- Counterexample to C8 as stated: reporting a match whose `reported` flag
is already set succeeds and silently overwrites the stored scores — there
is no `reported`-gated compare-and-set and no StateConflict. -/
theorem report_overwrite_counterexample :
    c8match.reported = true ∧
    (report_match_post c8match 1 (-1) [(11, 5), (11, 6)]).toOption =
      some { c8match with
        score1 := some 22, score2 := some 11,
        game1_score1 := some 11, game1_score2 := some 5,
        game2_score1 := some 11, game2_score2 := some 6,
        game3_score1 := none, game3_score2 := none,
        reported := true, double_forfeit := false } ∧
    (report_match_post c8match 1 (-1) [(11, 5), (11, 6)]).toOption ≠ some c8match := by
  refine ⟨by decide, by decide, by decide⟩

/-- C8 (amended): a score report for a non-bye, non-double-forfeited
regular-season match of the current week succeeds regardless of the row's
`reported` flag, overwriting the stored scores and flags; the persisted
`reported` flag does not gate the write. -/
theorem report_match_post_spec (m : MatchRow) (cw : Nat) (cpr : Int)
    (gs : List (Int × Int)) (w : Nat × Nat)
    (hp2 : m.player2_id ≠ none) (hpf : m.playoff = false)
    (hwk : m.week = some cw) (hcw : cw ≠ 0) (hdf : m.double_forfeit = false)
    (hval : validate_best_of_three gs = .ok w) :
    report_match_post m cw cpr gs = .ok { m with
      score1 := some (gs.foldr (fun s acc => s.1 + acc) 0),
      score2 := some (gs.foldr (fun s acc => s.2 + acc) 0),
      game1_score1 := (gs[0]?).map Prod.fst,
      game1_score2 := (gs[0]?).map Prod.snd,
      game2_score1 := (gs[1]?).map Prod.fst,
      game2_score2 := (gs[1]?).map Prod.snd,
      game3_score1 := (gs[2]?).map Prod.fst,
      game3_score2 := (gs[2]?).map Prod.snd,
      reported := true,
      double_forfeit := false } := by
  unfold report_match_post
  rw [if_neg hp2]
  rw [if_neg (by simp [hpf])]
  rw [if_neg (by simp [hpf])]
  rw [if_neg (by
    rintro ⟨-, -, hgt⟩
    rw [hwk] at hgt
    simp at hgt)]
  rw [if_neg (by
    rintro ⟨-, -, hor⟩
    rcases hor with hlt | hdff
    · rw [hwk] at hlt
      simp at hlt
    · rw [hdf] at hdff
      exact Bool.false_ne_true hdff)]
  rw [hval]

/-- Witness for the amended C8: re-reporting the already-reported `c8match`
succeeds and installs the new scores. -/
theorem report_match_post_spec_witness :
    c8match.reported = true ∧
    report_match_post c8match 1 (-1) [(11, 5), (11, 6)] = .ok { c8match with
      score1 := some 22, score2 := some 11,
      game1_score1 := some 11, game1_score2 := some 5,
      game2_score1 := some 11, game2_score2 := some 6,
      game3_score1 := none, game3_score2 := none,
      reported := true, double_forfeit := false } :=
  ⟨by decide,
    (report_match_post_spec c8match 1 (-1) [(11, 5), (11, 6)] (2, 0)
      (by decide) (by decide) (by decide) (by decide) (by decide)
      rfl).trans (congrArg Except.ok (by decide))⟩

/-! ## C9: player deletion (`admin_delete_player`, `app.py:2716`) -/

/-- `admin_delete_player` (`app.py:2716`): reject when the player has any
reported two-participant match; otherwise reject when the player appears in
any playoff match; otherwise delete all of the player's matches and the
player row.  Returns the new state and whether the deletion happened. -/
def admin_delete_player (db : Db) (pid : Nat) : Db × Bool :=
  let reported_count := (db.rows.filter fun m =>
    (m.player1_id == some pid || m.player2_id == some pid) &&
      m.reported && m.player2_id != none).length
  if reported_count > 0 then (db, false)
  else
    let playoff_count := (db.rows.filter fun m =>
      (m.player1_id == some pid || m.player2_id == some pid) && m.playoff).length
    if playoff_count > 0 then (db, false)
    else
      ({ db with
          rows := db.rows.filter fun m =>
            !(m.player1_id == some pid || m.player2_id == some pid),
          players := db.players.filter fun q => q != pid }, true)

/-- A player (id 5) whose only match is an unreported playoff match. -/
def c9db : Db :=
  { rows :=
    [{ id := 1, player1_id := some 5, player2_id := some 6, playoff := true,
       playoff_round := some 1, match_number := some 1 }],
    players := [5, 6],
    current_playoff_round := 1,
    next_id := 2 }

/-- Counterexample to C9 as stated: player 5 has zero reported matches, yet
deletion fails and mutates nothing because the player appears in a playoff
match — the playoff-bracket check rejects before any cascade. -/
theorem delete_player_playoff_counterexample :
    (c9db.rows.filter fun m =>
      (m.player1_id == some 5 || m.player2_id == some 5) &&
        m.reported && m.player2_id != none).length = 0 ∧
    admin_delete_player c9db 5 = (c9db, false) := by
  refine ⟨by decide, by decide⟩

/-- C9 (amended): deletion fails with no mutation when the player has any
reported two-participant match, or (new condition) appears in any playoff
match; with neither, it succeeds and cascades removal of the player's
matches and the player row. -/
theorem admin_delete_player_spec (db : Db) (pid : Nat) :
    ((∃ m ∈ db.rows, (m.player1_id = some pid ∨ m.player2_id = some pid) ∧
        m.reported = true ∧ m.player2_id ≠ none) →
      admin_delete_player db pid = (db, false)) ∧
    ((¬ ∃ m ∈ db.rows, (m.player1_id = some pid ∨ m.player2_id = some pid) ∧
        m.reported = true ∧ m.player2_id ≠ none) →
      (∃ m ∈ db.rows, (m.player1_id = some pid ∨ m.player2_id = some pid) ∧
        m.playoff = true) →
      admin_delete_player db pid = (db, false)) ∧
    ((¬ ∃ m ∈ db.rows, (m.player1_id = some pid ∨ m.player2_id = some pid) ∧
        m.reported = true ∧ m.player2_id ≠ none) →
      (¬ ∃ m ∈ db.rows, (m.player1_id = some pid ∨ m.player2_id = some pid) ∧
        m.playoff = true) →
      admin_delete_player db pid =
        ({ db with
            rows := db.rows.filter fun m =>
              !(m.player1_id == some pid || m.player2_id == some pid),
            players := db.players.filter fun q => q != pid }, true)) := by
  have hrep : (0 < (db.rows.filter fun m =>
      (m.player1_id == some pid || m.player2_id == some pid) &&
        m.reported && m.player2_id != none).length) ↔
      (∃ m ∈ db.rows, (m.player1_id = some pid ∨ m.player2_id = some pid) ∧
        m.reported = true ∧ m.player2_id ≠ none) := by
    rw [List.length_pos]
    constructor
    · intro hne
      obtain ⟨m, hm⟩ := List.exists_mem_of_ne_nil _ hne
      rw [List.mem_filter] at hm
      obtain ⟨hmem, hpred⟩ := hm
      simp only [Bool.and_eq_true, Bool.or_eq_true, beq_iff_eq, bne_iff_ne,
        ne_eq] at hpred
      exact ⟨m, hmem, hpred.1.1, hpred.1.2, hpred.2⟩
    · rintro ⟨m, hm, hor, hrep', hne2⟩
      intro heq
      refine (List.filter_eq_nil_iff.mp heq m hm) ?_
      simp only [Bool.and_eq_true, Bool.or_eq_true, beq_iff_eq, bne_iff_ne,
        ne_eq]
      exact ⟨⟨hor, hrep'⟩, hne2⟩
  have hpf : (0 < (db.rows.filter fun m =>
      (m.player1_id == some pid || m.player2_id == some pid) && m.playoff).length) ↔
      (∃ m ∈ db.rows, (m.player1_id = some pid ∨ m.player2_id = some pid) ∧
        m.playoff = true) := by
    rw [List.length_pos]
    constructor
    · intro hne
      obtain ⟨m, hm⟩ := List.exists_mem_of_ne_nil _ hne
      rw [List.mem_filter] at hm
      obtain ⟨hmem, hpred⟩ := hm
      simp only [Bool.and_eq_true, Bool.or_eq_true, beq_iff_eq] at hpred
      exact ⟨m, hmem, hpred.1, hpred.2⟩
    · rintro ⟨m, hm, hor, hpl⟩
      intro heq
      refine (List.filter_eq_nil_iff.mp heq m hm) ?_
      simp only [Bool.and_eq_true, Bool.or_eq_true, beq_iff_eq]
      exact ⟨hor, hpl⟩
  refine ⟨?_, ?_, ?_⟩
  · intro hex
    unfold admin_delete_player
    rw [if_pos (hrep.mpr hex)]
  · intro hnex hex
    unfold admin_delete_player
    rw [if_neg (fun h => hnex (hrep.mp h))]
    rw [if_pos (hpf.mpr hex)]
  · intro hnex1 hnex2
    unfold admin_delete_player
    rw [if_neg (fun h => hnex1 (hrep.mp h))]
    rw [if_neg (fun h => hnex2 (hpf.mp h))]

/-- A player (id 7) with only an unreported regular-season match. -/
def c9ok : Db :=
  { rows :=
    [{ id := 1, week := some 1, player1_id := some 7, player2_id := some 8 }],
    players := [7, 8],
    current_playoff_round := -1,
    next_id := 2 }

/-- Witness for the amended C9: deleting player 7, who has no reported and
no playoff matches, succeeds and cascades removal of the match row and the
player row. -/
theorem admin_delete_player_spec_witness :
    admin_delete_player c9ok 7 =
      ({ rows := [], players := [8], current_playoff_round := -1, next_id := 2 }, true) :=
  ((admin_delete_player_spec c9ok 7).2.2 (by decide) (by decide)).trans (by decide)

/-! ## C7: the round-robin scheduler (`app.py:444-538`)

Randomness (`random.shuffle`) is supplied by an oracle; every shuffle site
is indexed richly enough (plan attempt, week index, week attempt, and the
choice history inside the backtracking search) that any concrete run of the
Python code is an instance of some oracle.  The theorems hold for every
oracle whose outputs are permutations of its inputs. -/

/-- One scheduled pairing; `none` is the bye placeholder. -/
abbrev Pair : Type := Option Nat × Option Nat

/-- The set of already-used unordered pairs (`set` of `frozenset` in
Python): membership checks both orientations. -/
abbrev PairSet : Type := List (Nat × Nat)

/-- Unordered membership of the pair `{a, b}`. -/
def pairMem (a b : Nat) (s : PairSet) : Bool :=
  s.any fun pq => (pq.1 == a && pq.2 == b) || (pq.1 == b && pq.2 == a)

/-- `updated_used.add(frozenset(...))` (`app.py:505-507`): record the pair
when both sides are real players. -/
def pushReal (used : PairSet) (p : Pair) : PairSet :=
  match p with
  | (some a, some b) => (a, b) :: used
  | _ => used

/-- `_valid_opponents_for` (`app.py:444`): candidates in order, dropping a
null-vs-null pairing and any already-used real pairing. -/
def valid_opponents_for (player : Option Nat) (candidates : List (Option Nat))
    (used_pairs : PairSet) : List (Option Nat) :=
  candidates.filter fun candidate =>
    match player, candidate with
    | none, none => false
    | none, some _ => true
    | some _, none => true
    | some p, some c => !(pairMem p c used_pairs)

/-- The loop of `_select_player_with_fewest_options` (`app.py:458`),
carrying the current best `(player, options)`.  Python filters candidates
by object identity (`is not player`); on duplicate-free rosters that is
equality, as modelled.  A player with no legal opponents short-circuits
with empty options; a just-updated best of length one breaks early. -/
def select_go (available : List (Option Nat)) (used_pairs : PairSet) :
    List (Option Nat) → Option (Option Nat × List (Option Nat)) →
      Option Nat × List (Option Nat)
  | [], best =>
    match best with
    | some (bp, bo) => (bp, bo)
    | none => (none, [])
  | player :: rest, best =>
    let remaining := available.filter fun c => c ≠ player
    let options := valid_opponents_for player remaining used_pairs
    if options.isEmpty then (player, [])
    else
      match best with
      | some (bp, bo) =>
        if options.length < bo.length then
          if options.length = 1 then (player, options)
          else select_go available used_pairs rest (some (player, options))
        else select_go available used_pairs rest (some (bp, bo))
      | none =>
        if options.length = 1 then (player, options)
        else select_go available used_pairs rest (some (player, options))

/-- `_select_player_with_fewest_options` (`app.py:458`). -/
def select_player_with_fewest_options (available : List (Option Nat))
    (used_pairs : PairSet) : Option Nat × List (Option Nat) :=
  select_go available used_pairs available none

/-- The `for opponent in options` backtracking loop of `_match_week`
(`app.py:502-511`), with the recursive call abstracted as `next`.
`remaining.remove(opponent)` raises in Python when the opponent is absent
(impossible for permutation oracles); that path is modelled as failure. -/
def try_opponents (next : List (Option Nat) → PairSet → List Pair → Option (List Pair))
    (player : Option Nat) (remaining : List (Option Nat)) (used_pairs : PairSet)
    (ms : List Pair) : List (Option Nat) → Option (List Pair)
  | [] => none
  | opponent :: rest =>
    if opponent ∈ remaining then
      match next (remaining.erase opponent) (pushReal used_pairs (player, opponent))
          (ms ++ [(player, opponent)]) with
      | some result => some result
      | none => try_opponents next player remaining used_pairs ms rest
    else none

/-- `_match_week` (`app.py:490`), by fuel: each recursion level removes at
least one element of `available` (the matched opponent), so any fuel
exceeding `available.length` behaves as the Python recursion; an exhausted
fuel is a failure, never reached through `match_week`.  `osel ms options`
is the shuffled options list, indexed by the choice history `ms`. -/
def match_week_fuel :
    Nat → (List Pair → List (Option Nat) → List (Option Nat)) →
      List (Option Nat) → PairSet → List Pair → Option (List Pair)
  | 0, _, _, _, _ => none
  | fuel + 1, osel, available, used_pairs, ms =>
    if available.isEmpty then some ms
    else
      let sel := select_player_with_fewest_options available used_pairs
      if sel.2.isEmpty then none
      else
        let remaining := available.erase sel.1
        try_opponents (match_week_fuel fuel osel) sel.1 remaining used_pairs ms
          (osel ms sel.2)

/-- `_match_week` at its always-sufficient fuel. -/
def match_week (osel : List Pair → List (Option Nat) → List (Option Nat))
    (available : List (Option Nat)) (used_pairs : PairSet) (ms : List Pair) :
    Option (List Pair) :=
  match_week_fuel (available.length + 1) osel available used_pairs ms

/-- The `participants` list of `_build_week_matching` (`app.py:475-477`):
the roster, padded with one null placeholder when odd. -/
def padded_participants (players : List Nat) : List (Option Nat) :=
  let base := players.map some
  if players.length % 2 ≠ 0 then base ++ [none] else base

/-- The retry loop of `_build_week_matching` (`app.py:479-487`): up to
`tries` attempts, each on a freshly shuffled participant list. -/
def build_week_loop (oshuf : Nat → List (Option Nat) → List (Option Nat))
    (osel : Nat → List Pair → List (Option Nat) → List (Option Nat))
    (participants : List (Option Nat)) (used_pairs : PairSet) :
    Nat → Nat → Option (List Pair)
  | _, 0 => none
  | attempt, tries + 1 =>
    match match_week (osel attempt) (oshuf attempt participants) used_pairs [] with
    | some result => some result
    | none => build_week_loop oshuf osel participants used_pairs (attempt + 1) tries

/-- `_build_week_matching` (`app.py:474`), `max_backtracks = 500`. -/
def build_week_matching (oshuf : Nat → List (Option Nat) → List (Option Nat))
    (osel : Nat → List Pair → List (Option Nat) → List (Option Nat))
    (players : List Nat) (used_pairs : PairSet)
    (max_backtracks : Nat := 500) : Option (List Pair) :=
  build_week_loop oshuf osel (padded_participants players) used_pairs 0 max_backtracks

/-- All shuffle sites of the scheduler, indexed by plan attempt, week index,
week attempt, and (for option shuffles) the partial week built so far. -/
structure SchedOracle where
  roster_shuffle : Nat → List Nat → List Nat
  week_shuffle : Nat → Nat → Nat → List (Option Nat) → List (Option Nat)
  opt_shuffle : Nat → Nat → Nat → List Pair → List (Option Nat) → List (Option Nat)

/-- Every shuffle output is a permutation of its input. -/
def SchedOracle.Lawful (O : SchedOracle) : Prop :=
  (∀ a l, (O.roster_shuffle a l).Perm l) ∧
  (∀ a w t l, (O.week_shuffle a w t l).Perm l) ∧
  (∀ a w t ms l, (O.opt_shuffle a w t ms l).Perm l)

/-- The inner week loop of `generate_reseeded_weeks` (`app.py:527-535`):
build each week, accumulating real pairings into `used_pairs`. -/
def plan_weeks (O : SchedOracle) (attempt : Nat) (roster : List Nat) :
    PairSet → Nat → Nat → Option (List (List Pair))
  | _, _, 0 => some []
  | used_pairs, week_idx, weeks + 1 =>
    match build_week_matching (O.week_shuffle attempt week_idx)
        (O.opt_shuffle attempt week_idx) roster used_pairs 500 with
    | none => none
    | some week =>
      match plan_weeks O attempt roster (week.foldl pushReal used_pairs)
          (week_idx + 1) weeks with
      | none => none
      | some rest => some (week :: rest)

/-- The plan retry loop of `generate_reseeded_weeks` (`app.py:522-537`):
each attempt reshuffles the roster in place and restarts from the existing
pairs. -/
def gen_attempts (O : SchedOracle) (existing_pairs : PairSet)
    (weeks_needed : Nat) : Nat → Nat → List Nat → Option (List (List Pair))
  | _, 0, _ => none
  | attempt, tries + 1, roster =>
    let roster2 := O.roster_shuffle attempt roster
    match plan_weeks O attempt roster2 existing_pairs 0 weeks_needed with
    | some schedule => some schedule
    | none => gen_attempts O existing_pairs weeks_needed (attempt + 1) tries roster2

/-- `generate_reseeded_weeks` (`app.py:515`), `max_attempts = 200`. -/
def generate_reseeded_weeks (O : SchedOracle) (player_ids : List Nat)
    (existing_pairs : PairSet) (weeks_needed : Nat)
    (max_attempts : Nat := 200) : Option (List (List Pair)) :=
  if weeks_needed = 0 then some []
  else if player_ids.length < 2 then some (List.replicate weeks_needed [])
  else gen_attempts O existing_pairs weeks_needed 0 max_attempts player_ids

/-- All participant slots of a pairing list, in order. -/
def pairPlayers : List Pair → List (Option Nat)
  | [] => []
  | (a, b) :: t => a :: b :: pairPlayers t

/-- A single pairing respects the used-pair set (byes always do). -/
def pairOkB (used : PairSet) : Pair → Bool
  | (some a, some b) => !(pairMem a b used)
  | _ => true

/-- Scanning a pairing list in order, every real pairing is new relative to
the used-pair set accumulated so far. -/
def pairsOkB : PairSet → List Pair → Bool
  | _, [] => true
  | used, p :: t => pairOkB used p && pairsOkB (pushReal used p) t

/-- Two stored pairs denote the same unordered pair. -/
def samePair (x y : Nat × Nat) : Bool :=
  (x.1 == y.1 && x.2 == y.2) || (x.1 == y.2 && x.2 == y.1)

/-- The real (non-bye) pairings of a pairing list. -/
def realPairs : List Pair → List (Nat × Nat)
  | [] => []
  | (some a, some b) :: t => (a, b) :: realPairs t
  | _ :: t => realPairs t

/-- Deterministic oracle: every shuffle returns its input unchanged. -/
def c7oracle : SchedOracle :=
  ⟨fun _ l => l, fun _ _ _ l => l, fun _ _ _ _ l => l⟩

theorem pairsOkB_append (used : PairSet) (xs ys : List Pair) :
    pairsOkB used (xs ++ ys) =
      (pairsOkB used xs && pairsOkB (xs.foldl pushReal used) ys) := by
  induction xs generalizing used with
  | nil => simp [pairsOkB]
  | cons p t ih =>
    rw [List.cons_append]
    show (pairOkB used p && pairsOkB (pushReal used p) (t ++ ys)) = _
    rw [ih, List.foldl_cons]
    show _ = ((pairOkB used p && pairsOkB (pushReal used p) t) && _)
    rw [Bool.and_assoc]

theorem samePair_eq_false_iff (x y : Nat × Nat) :
    samePair x y = false ↔
      ¬(x.1 = y.1 ∧ x.2 = y.2) ∧ ¬(x.1 = y.2 ∧ x.2 = y.1) := by
  simp [samePair]

theorem pairMem_pred_eq (a b : Nat) (e : Nat × Nat) :
    ((e.1 == a && e.2 == b) || (e.1 == b && e.2 == a)) = samePair (a, b) e := by
  rw [Bool.eq_iff_iff]
  simp only [samePair, Bool.or_eq_true, Bool.and_eq_true, beq_iff_eq]
  constructor
  · rintro (⟨h1, h2⟩ | ⟨h1, h2⟩)
    · exact Or.inl ⟨h1.symm, h2.symm⟩
    · exact Or.inr ⟨h2.symm, h1.symm⟩
  · rintro (⟨h1, h2⟩ | ⟨h1, h2⟩)
    · exact Or.inl ⟨h1.symm, h2.symm⟩
    · exact Or.inr ⟨h2.symm, h1.symm⟩

theorem pairMem_eq_false_iff (a b : Nat) (s : PairSet) :
    pairMem a b s = false ↔ ∀ e ∈ s, samePair (a, b) e = false := by
  simp only [pairMem, List.any_eq_false, Bool.not_eq_true]
  constructor
  · intro h e he
    rw [← pairMem_pred_eq]
    exact h e he
  · intro h e he
    rw [pairMem_pred_eq]
    exact h e he

theorem pairsOkB_prop :
    ∀ (w : List Pair) (used : PairSet), pairsOkB used w = true →
      (∀ x ∈ realPairs w, ∀ e ∈ used, samePair x e = false) ∧
        List.Pairwise (fun x y => samePair x y = false) (realPairs w) := by
  intro w
  induction w with
  | nil =>
    intro used _
    exact ⟨by intro x hx; simp [realPairs] at hx, by simp [realPairs]⟩
  | cons p t ih =>
    intro used h
    simp only [pairsOkB, Bool.and_eq_true] at h
    obtain ⟨hp, ht⟩ := h
    obtain ⟨a, b⟩ := p
    match a, b with
    | some a, some b =>
      have hmem : pairMem a b used = false := by
        have : (!pairMem a b used) = true := hp
        simp only [Bool.not_eq_true'] at this
        exact this
      have hmemiff := (pairMem_eq_false_iff a b used).mp hmem
      have hih := ih ((a, b) :: used) (by simpa [pushReal] using ht)
      refine ⟨?_, ?_⟩
      · intro x hx e he
        simp only [realPairs, List.mem_cons] at hx
        rcases hx with rfl | hx
        · exact hmemiff e he
        · exact hih.1 x hx e (List.mem_cons_of_mem _ he)
      · show List.Pairwise _ ((a, b) :: realPairs t)
        refine List.pairwise_cons.mpr ⟨?_, hih.2⟩
        intro y hy
        have hsy := hih.1 y hy (a, b) (List.mem_cons_self _ _)
        rw [samePair_eq_false_iff] at hsy ⊢
        exact ⟨fun hc => hsy.1 ⟨hc.1.symm, hc.2.symm⟩,
          fun hc => hsy.2 ⟨hc.2.symm, hc.1.symm⟩⟩
    | some a, none =>
      have hih := ih used (by simpa [pushReal] using ht)
      exact ⟨fun x hx => hih.1 x (by simpa [realPairs] using hx),
        by simpa [realPairs] using hih.2⟩
    | none, b =>
      have hih := ih used (by simpa [pushReal] using ht)
      exact ⟨fun x hx => hih.1 x (by simpa [realPairs] using hx),
        by simpa [realPairs] using hih.2⟩

theorem mem_valid_opponents {player candidate : Option Nat}
    {candidates : List (Option Nat)} {used : PairSet}
    (h : candidate ∈ valid_opponents_for player candidates used) :
    candidate ∈ candidates ∧ pairOkB used (player, candidate) = true := by
  obtain ⟨hmem, hpred⟩ := List.mem_filter.mp h
  refine ⟨hmem, ?_⟩
  match player, candidate with
  | none, none => simp at hpred
  | none, some c => rfl
  | some p, none => rfl
  | some p, some c => exact hpred

theorem select_go_spec (available : List (Option Nat)) (used : PairSet) :
    ∀ (l : List (Option Nat)) (best : Option (Option Nat × List (Option Nat))),
      (∀ x ∈ l, x ∈ available) →
      (∀ bp bo, best = some (bp, bo) → bp ∈ available ∧
        bo = valid_opponents_for bp (available.filter fun c => c ≠ bp) used) →
      (select_go available used l best).2 ≠ [] →
      (select_go available used l best).1 ∈ available ∧
        (select_go available used l best).2 =
          valid_opponents_for (select_go available used l best).1
            (available.filter fun c => c ≠ (select_go available used l best).1) used := by
  intro l
  induction l with
  | nil =>
    intro best hl hbest
    rcases best with _ | ⟨bp, bo⟩
    · intro hne
      exact absurd rfl hne
    · intro _
      exact hbest bp bo rfl
  | cons player rest ih =>
    intro best hl hbest
    have hplayer : player ∈ available := hl player (List.mem_cons_self _ _)
    have hrest : ∀ x ∈ rest, x ∈ available := fun x hx => hl x (List.mem_cons_of_mem _ hx)
    simp only [select_go]
    split
    · intro hne
      exact absurd rfl hne
    · rcases best with _ | ⟨bp, bo⟩
      · dsimp only
        split
        · intro _
          exact ⟨hplayer, rfl⟩
        · refine ih _ hrest ?_
          intro bp2 bo2 he
          injection he with he2
          injection he2 with h1 h2
          subst h1
          subst h2
          exact ⟨hplayer, rfl⟩
      · dsimp only
        split
        · split
          · intro _
            exact ⟨hplayer, rfl⟩
          · refine ih _ hrest ?_
            intro bp2 bo2 he
            injection he with he2
            injection he2 with h1 h2
            subst h1
            subst h2
            exact ⟨hplayer, rfl⟩
        · refine ih _ hrest ?_
          intro bp2 bo2 he
          injection he with he2
          injection he2 with h1 h2
          subst h1
          subst h2
          exact hbest _ _ rfl

theorem select_spec (available : List (Option Nat)) (used : PairSet)
    (hne : (select_player_with_fewest_options available used).2 ≠ []) :
    (select_player_with_fewest_options available used).1 ∈ available ∧
      (select_player_with_fewest_options available used).2 =
        valid_opponents_for (select_player_with_fewest_options available used).1
          (available.filter fun c => c ≠ (select_player_with_fewest_options available used).1)
          used :=
  select_go_spec available used available none (fun _ hx => hx)
    (fun _ _ h => by cases h) hne

theorem try_opponents_spec
    (next : List (Option Nat) → PairSet → List Pair → Option (List Pair))
    (player : Option Nat) (remaining : List (Option Nat)) (used : PairSet)
    (ms : List Pair) :
    ∀ (opps : List (Option Nat)) (res : List Pair),
      try_opponents next player remaining used ms opps = some res →
      ∃ opponent, opponent ∈ opps ∧ opponent ∈ remaining ∧
        next (remaining.erase opponent) (pushReal used (player, opponent))
          (ms ++ [(player, opponent)]) = some res := by
  intro opps
  induction opps with
  | nil =>
    intro res h
    exact absurd h (by simp [try_opponents])
  | cons opponent rest ih =>
    intro res h
    simp only [try_opponents] at h
    by_cases hmem : opponent ∈ remaining
    · rw [if_pos hmem] at h
      rcases hcall : next (remaining.erase opponent) (pushReal used (player, opponent))
          (ms ++ [(player, opponent)]) with _ | r
      · rw [hcall] at h
        dsimp only at h
        obtain ⟨o, ho1, ho2, ho3⟩ := ih res h
        exact ⟨o, List.mem_cons_of_mem _ ho1, ho2, ho3⟩
      · rw [hcall] at h
        dsimp only at h
        cases h
        exact ⟨opponent, List.mem_cons_self _ _, hmem, hcall⟩
    · rw [if_neg hmem] at h
      cases h

theorem perm_cons_erase_beq {a : Option Nat} :
    ∀ {l : List (Option Nat)}, a ∈ l → l.Perm (a :: l.erase a) := by
  intro l
  induction l with
  | nil =>
    intro h
    cases h
  | cons b t ih =>
    intro h
    by_cases hba : b = a
    · subst hba
      rw [List.erase_cons_head]
    · have hmem : a ∈ t := by
        rcases List.mem_cons.mp h with h1 | h1
        · exact absurd h1.symm hba
        · exact h1
      rw [List.erase_cons_tail (fun hc => hba (eq_of_beq hc))]
      exact ((ih hmem).cons b).trans (List.Perm.swap a b _)

theorem match_week_fuel_spec :
    ∀ (fuel : Nat) (osel : List Pair → List (Option Nat) → List (Option Nat))
      (available : List (Option Nat)) (used : PairSet) (ms res : List Pair),
      (∀ ms2 l, ∀ x ∈ osel ms2 l, x ∈ l) →
      match_week_fuel fuel osel available used ms = some res →
      ∃ suffix, res = ms ++ suffix ∧ (pairPlayers suffix).Perm available ∧
        pairsOkB used suffix = true := by
  intro fuel
  induction fuel with
  | zero =>
    intro osel available used ms res _ h
    cases h
  | succ fuel ih =>
    intro osel available used ms res hosel h
    simp only [match_week_fuel] at h
    by_cases hav : available.isEmpty
    · rw [if_pos hav] at h
      cases h
      have hnil : available = [] := by
        cases available with
        | nil => rfl
        | cons a t => simp [List.isEmpty] at hav
      refine ⟨[], by rw [List.append_nil], ?_, rfl⟩
      rw [hnil]
      exact List.Perm.refl _
    · rw [if_neg hav] at h
      by_cases hsel : (select_player_with_fewest_options available used).2.isEmpty
      · rw [if_pos hsel] at h
        cases h
      · rw [if_neg hsel] at h
        have hne : (select_player_with_fewest_options available used).2 ≠ [] := by
          intro hnil
          rw [hnil] at hsel
          exact hsel rfl
        obtain ⟨hsel1, hsel2⟩ := select_spec available used hne
        obtain ⟨opponent, ho1, ho2, ho3⟩ := try_opponents_spec _ _ _ _ _ _ _ h
        have homem : opponent ∈ (select_player_with_fewest_options available used).2 :=
          hosel ms _ opponent ho1
        rw [hsel2] at homem
        have hok : pairOkB used ((select_player_with_fewest_options available used).1,
            opponent) = true := (mem_valid_opponents homem).2
        obtain ⟨suffix, hs1, hs2, hs3⟩ := ih osel _ _ _ _ hosel ho3
        refine ⟨((select_player_with_fewest_options available used).1, opponent) :: suffix,
          ?_, ?_, ?_⟩
        · rw [hs1, List.append_assoc]
          rfl
        · show ((select_player_with_fewest_options available used).1 ::
            opponent :: pairPlayers suffix).Perm available
          have step1 := (perm_cons_erase_beq ho2).symm
          have step2 := (perm_cons_erase_beq hsel1).symm
          refine List.Perm.trans ?_ (List.Perm.trans
            (step1.cons (select_player_with_fewest_options available used).1) step2)
          exact (hs2.cons opponent).cons _
        · show (pairOkB used _ && pairsOkB (pushReal used _) suffix) = true
          rw [hok, hs3]
          rfl

theorem match_week_spec (osel : List Pair → List (Option Nat) → List (Option Nat))
    (available : List (Option Nat)) (used : PairSet) (ms res : List Pair)
    (hosel : ∀ ms2 l, ∀ x ∈ osel ms2 l, x ∈ l)
    (h : match_week osel available used ms = some res) :
    ∃ suffix, res = ms ++ suffix ∧ (pairPlayers suffix).Perm available ∧
      pairsOkB used suffix = true :=
  match_week_fuel_spec _ osel available used ms res hosel h

theorem build_week_loop_spec (oshuf : Nat → List (Option Nat) → List (Option Nat))
    (osel : Nat → List Pair → List (Option Nat) → List (Option Nat))
    (participants : List (Option Nat)) (used : PairSet) :
    ∀ (tries attempt : Nat) (res : List Pair),
      build_week_loop oshuf osel participants used attempt tries = some res →
      ∃ a, match_week (osel a) (oshuf a participants) used [] = some res := by
  intro tries
  induction tries with
  | zero =>
    intro attempt res h
    cases h
  | succ tries ih =>
    intro attempt res h
    simp only [build_week_loop] at h
    rcases hcall : match_week (osel attempt) (oshuf attempt participants) used [] with _ | r
    · rw [hcall] at h
      dsimp only at h
      exact ih (attempt + 1) res h
    · rw [hcall] at h
      dsimp only at h
      cases h
      exact ⟨attempt, hcall⟩

theorem build_week_matching_spec (oshuf : Nat → List (Option Nat) → List (Option Nat))
    (osel : Nat → List Pair → List (Option Nat) → List (Option Nat))
    (players : List Nat) (used : PairSet) (maxb : Nat) (res : List Pair)
    (hshuf : ∀ a l, (oshuf a l).Perm l)
    (hosel : ∀ a ms l, (osel a ms l).Perm l)
    (h : build_week_matching oshuf osel players used maxb = some res) :
    (pairPlayers res).Perm (padded_participants players) ∧ pairsOkB used res = true := by
  obtain ⟨a, ha⟩ := build_week_loop_spec oshuf osel (padded_participants players) used maxb 0 res h
  obtain ⟨suffix, hs1, hs2, hs3⟩ := match_week_spec (osel a) _ used [] res
    (fun ms2 l x hx => ((hosel a ms2 l).mem_iff).mp hx) ha
  rw [List.nil_append] at hs1
  subst hs1
  exact ⟨hs2.trans (hshuf a _), hs3⟩

theorem plan_weeks_spec (O : SchedOracle) (attempt : Nat) (roster : List Nat)
    (hw : ∀ a w t l, (O.week_shuffle a w t l).Perm l)
    (ho : ∀ a w t ms l, (O.opt_shuffle a w t ms l).Perm l) :
    ∀ (weeks week_idx : Nat) (used : PairSet) (schedule : List (List Pair)),
      plan_weeks O attempt roster used week_idx weeks = some schedule →
      (∀ week ∈ schedule, (pairPlayers week).Perm (padded_participants roster)) ∧
        pairsOkB used schedule.flatten = true := by
  intro weeks
  induction weeks with
  | zero =>
    intro week_idx used schedule h
    cases h
    refine ⟨?_, rfl⟩
    intro week hweek
    cases hweek
  | succ weeks ih =>
    intro week_idx used schedule h
    simp only [plan_weeks] at h
    rcases hb : build_week_matching (O.week_shuffle attempt week_idx)
        (O.opt_shuffle attempt week_idx) roster used 500 with _ | week
    · rw [hb] at h
      cases h
    · rw [hb] at h
      dsimp only at h
      rcases hp : plan_weeks O attempt roster (week.foldl pushReal used)
          (week_idx + 1) weeks with _ | rest
      · rw [hp] at h
        cases h
      · rw [hp] at h
        dsimp only at h
        cases h
        obtain ⟨hwperm, hwok⟩ := build_week_matching_spec _ _ roster used 500 week
          (fun a l => hw attempt week_idx a l) (fun a ms l => ho attempt week_idx a ms l) hb
        obtain ⟨hrperm, hrok⟩ := ih (week_idx + 1) (week.foldl pushReal used) rest hp
        refine ⟨?_, ?_⟩
        · intro w hwmem
          rcases List.mem_cons.mp hwmem with rfl | hwmem
          · exact hwperm
          · exact hrperm w hwmem
        · show pairsOkB used (week ++ rest.flatten) = true
          rw [pairsOkB_append, hwok, hrok]
          rfl

theorem gen_attempts_spec (O : SchedOracle) (existing : PairSet) (weeks : Nat)
    (hw : ∀ a w t l, (O.week_shuffle a w t l).Perm l)
    (ho : ∀ a w t ms l, (O.opt_shuffle a w t ms l).Perm l)
    (hr : ∀ a l, (O.roster_shuffle a l).Perm l) :
    ∀ (tries attempt : Nat) (roster : List Nat) (schedule : List (List Pair)),
      gen_attempts O existing weeks attempt tries roster = some schedule →
      ∃ roster2 : List Nat, roster2.Perm roster ∧
        (∀ week ∈ schedule, (pairPlayers week).Perm (padded_participants roster2)) ∧
        pairsOkB existing schedule.flatten = true := by
  intro tries
  induction tries with
  | zero =>
    intro attempt roster schedule h
    cases h
  | succ tries ih =>
    intro attempt roster schedule h
    simp only [gen_attempts] at h
    rcases hp : plan_weeks O attempt (O.roster_shuffle attempt roster) existing 0 weeks
        with _ | sched2
    · rw [hp] at h
      dsimp only at h
      obtain ⟨roster3, h1, h2, h3⟩ := ih (attempt + 1) (O.roster_shuffle attempt roster)
        schedule h
      exact ⟨roster3, h1.trans (hr attempt roster), h2, h3⟩
    · rw [hp] at h
      dsimp only at h
      cases h
      obtain ⟨h1, h2⟩ := plan_weeks_spec O attempt (O.roster_shuffle attempt roster)
        hw ho weeks 0 existing schedule hp
      exact ⟨O.roster_shuffle attempt roster, hr attempt roster, h1, h2⟩

theorem count_map_some (roster : List Nat) (p : Nat) :
    (roster.map some).count (some p) = roster.count p := by
  induction roster with
  | nil => rfl
  | cons a t ih =>
    rw [List.map_cons, List.count_cons, List.count_cons, ih]
    by_cases hap : a = p
    · have h1 : (some a == some p) = true := beq_iff_eq.mpr (by rw [hap])
      have h2 : (a == p) = true := beq_iff_eq.mpr hap
      rw [h1, h2]
    · have h1 : (some a == some p) = false := beq_eq_false_iff_ne.mpr (by
        intro hc
        exact hap (Option.some.inj hc))
      have h2 : (a == p) = false := beq_eq_false_iff_ne.mpr hap
      rw [h1, h2]

theorem count_le_one_of_nodup (l : List Nat) (h : l.Nodup) (p : Nat) : l.count p ≤ 1 := by
  induction l with
  | nil => exact Nat.zero_le 1
  | cons a t ih =>
    obtain ⟨hna, hnd⟩ := List.nodup_cons.mp h
    rw [List.count_cons]
    by_cases hap : a = p
    · have hzero : t.count p = 0 := by
        rw [List.count_eq_zero]
        rw [← hap]
        exact hna
      rw [hzero, beq_iff_eq.mpr hap]
      simp
    · rw [beq_eq_false_iff_ne.mpr hap]
      have := ih hnd
      simpa using this

theorem count_some_padded (roster : List Nat) (p : Nat) :
    (padded_participants roster).count (some p) = roster.count p := by
  unfold padded_participants
  dsimp only
  by_cases hodd : roster.length % 2 ≠ 0
  · rw [if_pos hodd, List.count_append, count_map_some]
    simp
  · rw [if_neg hodd, count_map_some]

theorem count_none_padded (roster : List Nat) :
    (padded_participants roster).count none =
      (if roster.length % 2 ≠ 0 then 1 else 0) := by
  unfold padded_participants
  dsimp only
  have hbase : (roster.map some).count none = 0 := by
    rw [List.count_eq_zero]
    simp
  by_cases hodd : roster.length % 2 ≠ 0
  · rw [if_pos hodd, if_pos hodd, List.count_append, hbase]
    rfl
  · rw [if_neg hodd, if_neg hodd, hbase]

theorem bye_countP (w : List Pair) (h : (pairPlayers w).count none ≤ 1) :
    w.countP (fun pr => pr.1 == none || pr.2 == none) = (pairPlayers w).count none := by
  induction w with
  | nil => rfl
  | cons p t ih =>
    obtain ⟨a, b⟩ := p
    have hexp : pairPlayers ((a, b) :: t) = a :: b :: pairPlayers t := rfl
    rw [hexp] at h ⊢
    rw [List.count_cons, List.count_cons] at h
    rw [List.countP_cons, List.count_cons, List.count_cons]
    match a, b with
    | none, none =>
      exfalso
      simp at h
    | none, some b =>
      simp only [] at h ⊢
      have hle : (pairPlayers t).count none ≤ 1 := by
        simp at h
        omega
      have heq := ih hle
      simp
      omega
    | some a, none =>
      have hle : (pairPlayers t).count none ≤ 1 := by
        simp at h
        omega
      have heq := ih hle
      simp
      omega
    | some a, some b =>
      have hle : (pairPlayers t).count none ≤ 1 := by
        simp at h
        omega
      have heq := ih hle
      simp
      omega

/-- C7: for any roster of at least two distinct players and any number of
weeks at most the roster size minus one, every schedule the round-robin
scheduler returns (rather than reporting failure) — under any shuffle
oracle whose outputs permute its inputs — (a) contains no unordered pair
of players twice, counting the pairs already used this season, (b) fields
each player at most once per week, and (c) for an odd roster size has
exactly one bye pairing per week. -/
theorem round_robin_schedule_spec (O : SchedOracle) (player_ids : List Nat)
    (existing_pairs : PairSet) (weeks_needed max_attempts : Nat)
    (schedule : List (List Pair))
    (hL : O.Lawful) (hnd : player_ids.Nodup) (h2 : 2 ≤ player_ids.length)
    (hwk : weeks_needed ≤ player_ids.length - 1)
    (h : generate_reseeded_weeks O player_ids existing_pairs weeks_needed
      max_attempts = some schedule) :
    (List.Pairwise (fun x y => samePair x y = false) (realPairs schedule.flatten) ∧
      (∀ x ∈ realPairs schedule.flatten, ∀ e ∈ existing_pairs, samePair x e = false)) ∧
    (∀ week ∈ schedule, ∀ p : Nat, (pairPlayers week).count (some p) ≤ 1) ∧
    (player_ids.length % 2 = 1 →
      ∀ week ∈ schedule, week.countP (fun pr => pr.1 == none || pr.2 == none) = 1) := by
  unfold generate_reseeded_weeks at h
  by_cases h0 : weeks_needed = 0
  · rw [if_pos h0] at h
    cases h
    exact ⟨⟨List.Pairwise.nil, fun x hx => absurd hx (by simp [realPairs])⟩,
      fun week hw => absurd hw (by simp),
      fun _ week hw => absurd hw (by simp)⟩
  · rw [if_neg h0] at h
    have hge : ¬ player_ids.length < 2 := by omega
    rw [if_neg hge] at h
    obtain ⟨roster2, hperm, hweeks, hok⟩ := gen_attempts_spec O existing_pairs weeks_needed
      hL.2.1 hL.2.2 hL.1 max_attempts 0 player_ids schedule h
    have hprop := pairsOkB_prop schedule.flatten existing_pairs hok
    refine ⟨⟨hprop.2, hprop.1⟩, ?_, ?_⟩
    · intro week hw p
      have hcount := (hweeks week hw).countP_eq (fun x => x == some p)
      rw [List.count_eq_countP, hcount, ← List.count_eq_countP, count_some_padded]
      exact count_le_one_of_nodup roster2 (hperm.nodup_iff.mpr hnd) p
    · intro hodd week hw
      have hcn := (hweeks week hw).countP_eq (fun x => x == (none : Option Nat))
      have h1 : (pairPlayers week).count none = 1 := by
        rw [List.count_eq_countP, hcn, ← List.count_eq_countP, count_none_padded,
          if_pos (by rw [hperm.length_eq]; omega)]
      rw [bye_countP week (by rw [h1]), h1]

theorem round_robin_schedule_spec_witness :
    List.countP (fun pr : Pair => pr.1 == none || pr.2 == none)
      [((some 1 : Option Nat), (some 2 : Option Nat)), (some 3, none)] = 1 :=
  (round_robin_schedule_spec c7oracle [1, 2, 3] [] 2 200
    [[(some 1, some 2), (some 3, none)], [(some 1, some 3), (some 2, none)]]
    ⟨fun _ _ => List.Perm.refl _, fun _ _ _ _ => List.Perm.refl _,
      fun _ _ _ _ _ => List.Perm.refl _⟩
    (by decide) (by decide) (by decide) (by decide)).2.2 (by decide)
    [(some 1, some 2), (some 3, none)] (by decide)
